import Mathlib

/-!
# Shallow embedding of the `ptcov` Intel-PT coverage decoder

Machine integers (`u64`, `u8`, `usize`) are modelled as `Nat`, with explicit
`% 2 ^ 64` where Rust wrapping semantics matter.  Byte buffers are `List Nat`.
Fallible Rust functions returning `Result` are modelled with `Except`;
functions taking `&mut self` return the updated value alongside the result,
also on the error path (matching Rust early `return Err(..)` which leaves the
partially mutated receiver alive).

Every definition is translated from the repository sources, except where the
doc comment starts with `Modelled from the spec:` (code of the repository
missing from the provided sources, reconstructed from the specification).
The x86 instruction decoding performed by the external `iced_x86` crate is
out of scope of the specification and is abstracted as an explicit `Oracle`
parameter; everything around it (state checks, memoization cache, image
lookup) is embedded from the source.
-/

deriving instance DecidableEq for Except

namespace Ptcov

/-- From `src/utils.rs`: `sign_extend_48`, the Rust source is
`((x << 16) as i64 >> 16) as u64`.  The shift `x << 16` on `u64` truncates to
64 bits, the cast to `i64` reinterprets as two's complement, `>> 16` on `i64`
is an arithmetic shift (floor division by `2 ^ 16`), and the final cast back
is reduction modulo `2 ^ 64`. -/
def sign_extend_48 (x : Nat) : Nat :=
  let y : Nat := (x <<< 16) % 2 ^ 64
  let z : Int := if y < 2 ^ 63 then (y : Int) else (y : Int) - 2 ^ 64
  (Int.fdiv z (2 ^ 16) % (2 ^ 64 : Int)).toNat

/-- From `src/utils.rs`: `fmix64`, the Murmur3 finalizer.  The two
`wrapping_mul`s are modelled with `% 2 ^ 64`; the xor-shifts stay below
`2 ^ 64` by themselves. -/
def fmix64 (k : Nat) : Nat :=
  let k1 := k ^^^ (k >>> 33)
  let k2 := (k1 * 0xff51afd7ed558ccd) % 2 ^ 64
  let k3 := k2 ^^^ (k2 >>> 33)
  let k4 := (k3 * 0xc4ceb9fe1a85ec53) % 2 ^ 64
  k4 ^^^ (k4 >>> 33)

/-- Little-endian byte recomposition, `u{16,32,64}::from_le_bytes` of the
Rust sources (missing high bytes are zero there, hence simply omitted here). -/
def u64_from_le (bytes : List Nat) : Nat :=
  bytes.foldr (fun b acc => b + 256 * acc) 0

/-- From `src/packet/mod.rs`: the two packet-layer parse errors. -/
inductive PtPacketParseError where
  | Eof
  | MalformedPacket
deriving DecidableEq

/-- From `src/packet/tip.rs`: the `IpBytes` compression tag (bits 7:5 of the
leading byte of any TIP-family packet). -/
inductive IpBytes where
  | None
  | _16
  | _32
  | SignExtend48
  | _48
  | _64
deriving DecidableEq

/-- From `src/packet/tip.rs`: a TIP-family packet body (`Tip`, and its
aliases `TipPge`, `TipPgd`, `Fup`). -/
structure Tip where
  ip_bytes : IpBytes
  target_ip : Nat
deriving DecidableEq

/-- From `src/packet/tip.rs`: `IpBytes::original_size`. -/
def IpBytes.original_size : IpBytes → Nat
  | .None => 1
  | ._16 => 3
  | ._32 => 5
  | ._48 | .SignExtend48 => 7
  | ._64 => 9

/-- From `src/packet/tip.rs`: `Tip::original_size` (via `SizedPtPacket`). -/
def Tip.original_size (t : Tip) : Nat :=
  t.ip_bytes.original_size

/-- From `src/packet/tip.rs`: `Tip::ip(&self, last_tip_ip: &mut u64) -> bool`.
The Rust function overwrites `*last_tip_ip` and returns `true`, except for
`IpBytes::None` where it returns `false` before writing.  Here it returns
`(did_update, new_last_tip_ip)`. -/
def Tip.ip (t : Tip) (last_tip_ip : Nat) : Bool × Nat :=
  match t.ip_bytes with
  | .None => (false, last_tip_ip)
  | ._16 => (true, last_tip_ip &&& 0xffffffffffff0000 ||| (t.target_ip &&& 0xffff))
  | ._32 => (true, last_tip_ip &&& 0xffffffff00000000 ||| (t.target_ip &&& 0xffffffff))
  | .SignExtend48 => (true, sign_extend_48 t.target_ip)
  | ._48 => (true, last_tip_ip &&& 0xffff000000000000 ||| (t.target_ip &&& 0xffffffffffff))
  | ._64 => (true, t.target_ip)

/-- From `src/packet/tip.rs`: `Tip::try_from_payload`.  The slice includes the
header byte; the tag is `payload[0] & 0xe0`, the compressed address is
read little-endian from the following bytes.  A tag needing more bytes than
are present falls through to the final arm, `MalformedPacket`. -/
def Tip.try_from_payload : List Nat → Except PtPacketParseError Tip
  | [] => .error .MalformedPacket
  | b0 :: rest =>
    match b0 &&& 0xe0, rest with
    | 0x00, _ => .ok { ip_bytes := .None, target_ip := 0 }
    | 0x20, b1 :: b2 :: _ =>
      .ok { ip_bytes := ._16, target_ip := u64_from_le [b1, b2] }
    | 0x40, b1 :: b2 :: b3 :: b4 :: _ =>
      .ok { ip_bytes := ._32, target_ip := u64_from_le [b1, b2, b3, b4] }
    | 0x80, b1 :: b2 :: b3 :: b4 :: b5 :: b6 :: _ =>
      .ok { ip_bytes := ._48, target_ip := u64_from_le [b1, b2, b3, b4, b5, b6] }
    | 0x60, b1 :: b2 :: b3 :: b4 :: b5 :: b6 :: _ =>
      .ok { ip_bytes := .SignExtend48, target_ip := u64_from_le [b1, b2, b3, b4, b5, b6] }
    | 0xc0, b1 :: b2 :: b3 :: b4 :: b5 :: b6 :: b7 :: b8 :: _ =>
      .ok { ip_bytes := ._64, target_ip := u64_from_le [b1, b2, b3, b4, b5, b6, b7, b8] }
    | _, _ => .error .MalformedPacket

/-- Base-2 logarithm by repeated halving, with explicit fuel so that the
kernel can evaluate it (`Nat.log2` is well-founded recursive and does not
reduce).  `log2Fuel fuel n = Nat.log2 n` whenever `fuel ≥ n ≥ 1`. -/
def log2Fuel : Nat → Nat → Nat
  | 0, _ => 0
  | fuel + 1, n => if 2 ≤ n then log2Fuel fuel (n / 2) + 1 else 0

/-- `u8::leading_zeros` of Rust (`8 - bit_length`).  For `x = 0` Rust returns
8 (the source expression `7 - leading_zeros` then underflows and panics in
debug builds; the packet parser only builds `TntShort` with `raw ≥ 4`, so
that case is unreachable — here natural subtraction truncates instead). -/
def u8_leading_zeros (x : Nat) : Nat :=
  if x = 0 then 8 else 7 - log2Fuel x x

/-- `u64::leading_zeros` of Rust (same remark as `u8_leading_zeros` for 0:
the parser rejects all-zero TNT-long payloads). -/
def u64_leading_zeros (x : Nat) : Nat :=
  if x = 0 then 64 else 63 - log2Fuel x x

/-- From `src/packet/tnt.rs`: `TntShort` (raw header byte, which carries the
payload bits and the stop bit). -/
structure TntShort where
  raw : Nat
deriving DecidableEq

/-- From `src/packet/tnt.rs`: `TntLong` (the 6 payload bytes). -/
structure TntLong where
  raw : List Nat
deriving DecidableEq

/-- From `src/packet/tnt.rs`: `TntLong::payload_as_u64`
(`u64::from_le_bytes` of the 6 payload bytes padded with two zero bytes). -/
def TntLong.payload_as_u64 (t : TntLong) : Nat :=
  u64_from_le t.raw

/-- From `src/packet/tnt.rs`: `TntShortIter`. -/
structure TntShortIter where
  tnt : TntShort
  mask : Nat
deriving DecidableEq

/-- From `src/packet/tnt.rs`: `TntLongIter`. -/
structure TntLongIter where
  tnt : TntLong
  mask : Nat
deriving DecidableEq

/-- From `src/packet/tnt.rs`: `IntoIterator for TntShort`
(`mask = 1u8 << (7 - raw.leading_zeros())`, i.e. the highest set bit). -/
def TntShort.intoIter (t : TntShort) : TntShortIter :=
  { tnt := t, mask := 1 <<< (7 - u8_leading_zeros t.raw) }

/-- From `src/packet/tnt.rs`: `IntoIterator for TntLong`
(`mask = 1u64 << (63 - payload_as_u64().leading_zeros())`). -/
def TntLong.intoIter (t : TntLong) : TntLongIter :=
  { tnt := t, mask := 1 <<< (63 - u64_leading_zeros t.payload_as_u64) }

/-- From `src/packet/tnt.rs`: `Iterator for TntShortIter::next`.  The mask is
shifted first; iteration ends when it reaches the stop-bit position
(`mask <= 0b1`). -/
def TntShortIter.next (it : TntShortIter) : Option (Bool × TntShortIter) :=
  let mask := it.mask >>> 1
  if mask ≤ 0b1 then none
  else some (decide (it.tnt.raw &&& mask ≠ 0), { tnt := it.tnt, mask := mask })

/-- From `src/packet/tnt.rs`: `Iterator for TntLongIter::next`.  Iteration
ends when the shifted mask reaches zero. -/
def TntLongIter.next (it : TntLongIter) : Option (Bool × TntLongIter) :=
  let mask := it.mask >>> 1
  if mask = 0 then none
  else some (decide (it.tnt.payload_as_u64 &&& mask ≠ 0), { tnt := it.tnt, mask := mask })

/-- Collects a `TntShortIter` the way `collect::<Vec<_>>()` does in the
source tests.  The mask strictly halves on every step, so an iterator over a
`u8`/`u64` mask yields at most 63 items; `fuel = 64` exhausts any iteration. -/
def TntShortIter.toListFuel : Nat → TntShortIter → List Bool
  | 0, _ => []
  | fuel + 1, it =>
    match it.next with
    | none => []
    | some (b, it') => b :: TntShortIter.toListFuel fuel it'

/-- The full Taken/Not-taken sequence of a `TntShortIter`. -/
def TntShortIter.toList (it : TntShortIter) : List Bool :=
  TntShortIter.toListFuel 64 it

/-- Collects a `TntLongIter`; see `TntShortIter.toListFuel`. -/
def TntLongIter.toListFuel : Nat → TntLongIter → List Bool
  | 0, _ => []
  | fuel + 1, it =>
    match it.next with
    | none => []
    | some (b, it') => b :: TntLongIter.toListFuel fuel it'

/-- The full Taken/Not-taken sequence of a `TntLongIter`. -/
def TntLongIter.toList (it : TntLongIter) : List Bool :=
  TntLongIter.toListFuel 64 it

/-- From `src/packet/tnt.rs`: `TntIter`, the combined iterator. -/
inductive TntIter where
  | TntShortIter (s : TntShortIter)
  | TntLongIter (l : TntLongIter)
deriving DecidableEq

/-- From `src/packet/tnt.rs`: `Iterator for TntIter` dispatches to the
backing iterator; collected into a list as the engine's `for` loop
consumes it. -/
def TntIter.toList : TntIter → List Bool
  | .TntShortIter s => s.toList
  | .TntLongIter l => l.toList

/-- From `src/packet/mode.rs`: `AddressingMode` (`_16 = 0b00`, `_32 = 0b10`,
`_64 = 0b01`). -/
inductive AddressingMode where
  | _16
  | _32
  | _64
deriving DecidableEq

/-- From `src/packet/mode.rs`: `ModeExec` (raw second packet byte). -/
structure ModeExec where
  raw : Nat
deriving DecidableEq

/-- From `src/packet/mode.rs`: `ModeExec::addressing_mode`.  The source
panics on the invalid encoding `0b11`; that is modelled as `none` (the
parser refuses to build such a `ModeExec`). -/
def ModeExec.addressing_mode (m : ModeExec) : Option AddressingMode :=
  match m.raw &&& 0x03 with
  | 0x00 => some ._16
  | 0x02 => some ._32
  | 0x01 => some ._64
  | _ => none

/-- From `src/packet/mode.rs`: `ModeExec::new`. -/
def ModeExec.new (addressing_mode : AddressingMode) (interrupt_flag : Bool) : ModeExec :=
  let am : Nat := match addressing_mode with | ._16 => 0b00 | ._32 => 0b10 | ._64 => 0b01
  { raw := ((if interrupt_flag then 1 else 0) <<< 2) ||| am }

/-- From `src/packet/mode.rs`: `ModeExec::try_from_payload` (addressing-mode
bits `0b11` are invalid). -/
def ModeExec.try_from_payload (payload : Nat) : Except PtPacketParseError ModeExec :=
  if payload &&& 0x03 = 0x03 then .error .MalformedPacket
  else .ok { raw := payload }

/-- From `src/packet/mode.rs`: `TransactionState`
(`Begin = 0b01`, `Abort = 0b10`, `Commit = 0b00`). -/
inductive TransactionState where
  | Begin
  | Abort
  | Commit
deriving DecidableEq

/-- From `src/packet/mode.rs`: `ModeTsx`. -/
structure ModeTsx where
  transaction_state : TransactionState
deriving DecidableEq

/-- From `src/packet/mode.rs`: `ModeTsx::new`. -/
def ModeTsx.new (transaction_state : TransactionState) : ModeTsx :=
  { transaction_state := transaction_state }

/-- From `src/packet/mode.rs`: `ModeTsx::try_from_payload` (transaction-state
bits `0b11` are invalid). -/
def ModeTsx.try_from_payload (payload : Nat) : Except PtPacketParseError ModeTsx :=
  match payload &&& 0x03 with
  | 0b01 => .ok { transaction_state := .Begin }
  | 0b10 => .ok { transaction_state := .Abort }
  | 0b00 => .ok { transaction_state := .Commit }
  | _ => .error .MalformedPacket

/-- From `src/packet/pip.rs`: `Pip` (the 6 payload bytes). -/
structure Pip where
  raw : List Nat
deriving DecidableEq

/-- From `src/packet/pip.rs`: `Pip::non_root_vmx` (`raw[0] & 0x01 != 0`). -/
def Pip.non_root_vmx (p : Pip) : Bool :=
  decide (p.raw.getD 0 0 &&& 0x01 ≠ 0)

/-- From `src/packet/vmcs.rs`: `Vmcs` (the 5 payload bytes). -/
structure Vmcs where
  raw : List Nat
deriving DecidableEq

/-- From `src/packet/mod.rs`: the `PtPacket` variants, restricted to the
configuration without optional cargo features (no `tsc`, `mtc`, `cyc`,
`ptw`, `pwr`, `pebs`, `event`), exactly the variants compiled by default. -/
inductive PtPacket where
  | TntShort (t : TntShort)
  | TntLong (t : TntLong)
  | Tip (t : Tip)
  | TipPge (t : Tip)
  | TipPgd (t : Tip)
  | Fup (t : Tip)
  | Pip (p : Pip)
  | ModeExec (m : ModeExec)
  | ModeTsx (m : ModeTsx)
  | TraceStop
  | Vmcs (v : Vmcs)
  | Ovf
  | Psb
  | PsbEnd
  | Mnt (raw : List Nat)
  | Trig (raw : List Nat)
deriving DecidableEq

/-- From `src/packet/mod.rs`: `SizedPtPacket::original_size` for `PtPacket`,
using the per-packet `SIZE` constants of each packet module.
`src/packet/psb.rs` is missing from the provided sources; modelled from the
spec: `PsbEnd::SIZE = 2` (packet table) and `Psb::SIZE = 16` (§6.1: the PSB
packet is the full sixteen-byte `02 82` × 8 sync sequence, of which the
parser matches the leading two bytes; the source packet-decoder test only
decodes one `Psb` from the sixteen sync bytes). -/
def PtPacket.original_size : PtPacket → Nat
  | .TntShort _ => 1
  | .TntLong _ => 8
  | .Tip t => t.original_size
  | .TipPge t => t.original_size
  | .TipPgd t => t.original_size
  | .Fup t => t.original_size
  | .Pip _ => 8
  | .ModeExec _ => 2
  | .ModeTsx _ => 2
  | .TraceStop => 2
  | .Vmcs _ => 7
  | .Ovf => 2
  | .Psb => 16
  | .PsbEnd => 2
  | .Mnt _ => 11
  | .Trig _ => 3

/-- Outcome of one round of the dispatch `loop` in `PtPacket::parse`
(`src/packet/mod.rs`): silently skip `n` cursor bytes and loop (`continue`
arms: padding, CBR), produce a packet (`break` arms), or fail. -/
inductive DispatchResult where
  | skip (n : Nat)
  | yieldPacket (p : PtPacket)
  | fail (e : PtPacketParseError)
deriving DecidableEq

/-- The TIP-family `break` arms of `PtPacket::parse`: parse the payload,
propagating its error (the Rust `?`). -/
def tipArm (mk : Tip → PtPacket) (slice : List Nat) : DispatchResult :=
  match Tip.try_from_payload slice with
  | .ok t => .yieldPacket (mk t)
  | .error e => .fail e

/-- The two `[mode::B0, b1, ..]` arms of `PtPacket::parse`, dispatched on
the mode bits of the second byte (`ModeExec::B1 = 0x00`,
`ModeTsx::B1 = 0x20`); any other mode falls through to
`[_, ..] => MalformedPacket`. -/
def modeArm (b1 : Nat) : DispatchResult :=
  if b1 &&& 0xe0 = 0x00 then
    match ModeExec.try_from_payload b1 with
    | .ok m => .yieldPacket (.ModeExec m)
    | .error e => .fail e
  else if b1 &&& 0xe0 = 0x20 then
    match ModeTsx.try_from_payload b1 with
    | .ok m => .yieldPacket (.ModeTsx m)
    | .error e => .fail e
  else .fail .MalformedPacket

/-- The `[0x02, Cbr::B1, _, _, ..]` arm: a CBR packet is silently skipped
(four bytes); with fewer than four bytes the slice pattern falls through to
`MalformedPacket`. -/
def cbrArm (rest2 : List Nat) : DispatchResult :=
  match rest2 with
  | _ :: _ :: _ => .skip 4
  | _ => .fail .MalformedPacket

/-- The `[0x02, Vmcs::B1, b2, .., b6, ..]` arm. -/
def vmcsArm (rest2 : List Nat) : DispatchResult :=
  match rest2 with
  | b2 :: b3 :: b4 :: b5 :: b6 :: _ => .yieldPacket (.Vmcs ⟨[b2, b3, b4, b5, b6]⟩)
  | _ => .fail .MalformedPacket

/-- The `[0x02, Pip::B1, b2, .., b7, ..]` arm. -/
def pipArm (rest2 : List Nat) : DispatchResult :=
  match rest2 with
  | b2 :: b3 :: b4 :: b5 :: b6 :: b7 :: _ =>
    .yieldPacket (.Pip ⟨[b2, b3, b4, b5, b6, b7]⟩)
  | _ => .fail .MalformedPacket

/-- The two `[0x02, TntLong::B1, ..]` arms: an all-zero payload (no stop
bit) is malformed, otherwise a TNT-long. -/
def tntLongArm (rest2 : List Nat) : DispatchResult :=
  match rest2 with
  | b2 :: b3 :: b4 :: b5 :: b6 :: b7 :: _ =>
    if b2 = 0 ∧ b3 = 0 ∧ b4 = 0 ∧ b5 = 0 ∧ b6 = 0 ∧ b7 = 0 then
      .fail .MalformedPacket
    else .yieldPacket (.TntLong ⟨[b2, b3, b4, b5, b6, b7]⟩)
  | _ => .fail .MalformedPacket

/-- The `[0x02, 0xc3, 0x88, b3, .., b10, ..]` arm (MNT). -/
def mntArm (rest2 : List Nat) : DispatchResult :=
  match rest2 with
  | b2 :: b3 :: b4 :: b5 :: b6 :: b7 :: b8 :: b9 :: b10 :: _ =>
    if b2 = 0x88 then .yieldPacket (.Mnt [b3, b4, b5, b6, b7, b8, b9, b10])
    else .fail .MalformedPacket
  | _ => .fail .MalformedPacket

/-- The `[0xd9, b1, b2, ..]` arm (TRIG). -/
def trigArm (rest : List Nat) : DispatchResult :=
  match rest with
  | b1 :: b2 :: _ => .yieldPacket (.Trig [b1, b2])
  | _ => .fail .MalformedPacket

/-- The `0x02`-headed arms of `PtPacket::parse`, dispatched on the second
byte.  The second-byte literals of these Rust arms are pairwise distinct, so
the ordered slice-pattern match is equivalently an if-cascade; an arm whose
slice pattern needs more bytes than are present falls through to the final
`[_, ..] => MalformedPacket` arm, rendered by the `_ => fail` arms of the
per-packet helpers above. -/
def extendedArm (rest : List Nat) : DispatchResult :=
  match rest with
  | [] => .fail .MalformedPacket
  | b1 :: rest2 =>
    if b1 = 0x23 then .yieldPacket .PsbEnd
    else if b1 = 0xf3 then .yieldPacket .Ovf
    else if b1 = 0x83 then .yieldPacket .TraceStop
    else if b1 = 0x82 then .yieldPacket .Psb
    else if b1 = 0x03 then cbrArm rest2
    else if b1 = 0xc8 then vmcsArm rest2
    else if b1 = 0x43 then pipArm rest2
    else if b1 = 0xa3 then tntLongArm rest2
    else if b1 = 0xc3 then mntArm rest2
    else .fail .MalformedPacket

/-- From `src/packet/mod.rs`: the body of the dispatch `loop` of
`PtPacket::parse`, operating on the slice `&input[pos..]`.  The arms appear
in source order; a Rust slice pattern that needs more bytes than are present
(or whose guard fails) falls through to the next arm, ending at
`[_, ..] => MalformedPacket` and `[] => Eof`.  The `0x99`-, `0x02`- and
`0xd9`-headed arm groups have pairwise distinct header literals, so the
ordered match is rendered as an if-cascade over the first byte. -/
def dispatchOne (l : List Nat) : DispatchResult :=
  match l with
  | [] => .fail .Eof
  | b0 :: rest =>
    if b0 = 0x00 then .skip 1
    else if b0 &&& 0x01 = 0 ∧ 0x04 ≤ b0 then .yieldPacket (.TntShort ⟨b0⟩)
    else if b0 &&& 0x1f = 0x01 then tipArm .TipPgd l
    else if b0 &&& 0x1f = 0x0d then tipArm .Tip l
    else if b0 &&& 0x1f = 0x11 then tipArm .TipPge l
    else if b0 &&& 0x1f = 0x1d then tipArm .Fup l
    else if b0 = 0x99 then
      match rest with
      | b1 :: _ => modeArm b1
      | [] => .fail .MalformedPacket
    else if b0 = 0x02 then extendedArm rest
    else if b0 = 0xd9 then trigArm rest
    else .fail .MalformedPacket

/-- The dispatch loop of `PtPacket::parse`, with explicit fuel (each `skip`
round consumes at least one buffer byte, so any `fuel > input.length - pos`
is enough; the fuel-0 fallback coincides with the end-of-buffer result).
Returns the parse outcome together with the final cursor position — the Rust
function mutates `pos` through `&mut usize`, keeping the skips' advancement
also when it subsequently fails. -/
def parseLoop : Nat → List Nat → Nat → Except PtPacketParseError PtPacket × Nat
  | 0, _, pos => (.error .Eof, pos)
  | fuel + 1, input, pos =>
    match dispatchOne (input.drop pos) with
    | .skip n => parseLoop fuel input (pos + n)
    | .yieldPacket p => (.ok p, pos + p.original_size)
    | .fail e => (.error e, pos)

/-- From `src/packet/mod.rs`: `PtPacket::parse(input, &mut pos)`. -/
def PtPacket.parse (input : List Nat) (pos : Nat) :
    Except PtPacketParseError PtPacket × Nat :=
  parseLoop (input.length + 1) input pos

/-- From `src/image.rs`: `PtImage` (the `cr3` / `vmcs_ptr` fields are always
`None` after `PtImage::new` and never read by the decoder). -/
structure PtImage where
  data : List Nat
  virtual_address : Nat
deriving DecidableEq

/-- From `src/image.rs`: `PtImage::virtual_address_start`. -/
def PtImage.virtual_address_start (i : PtImage) : Nat :=
  i.virtual_address

/-- From `src/image.rs`: `PtImage::virtual_address_end`
(`virtual_address + data.len()`). -/
def PtImage.virtual_address_end (i : PtImage) : Nat :=
  i.virtual_address + i.data.length

/-- From `src/cpu.rs`: `PtCpuVendor`. -/
inductive PtCpuVendor where
  | Intel
deriving DecidableEq

/-- From `src/cpu.rs`: `PtCpu` (the `stepping` constructor argument is
discarded by `PtCpu::new`).  The errata table is embedded only as far as the
engine consults it: the single consulted flag `bdm70` guards an empty
`// todo` body in `decode_psbplus_fup`, so the errata computation itself has
no observable effect. -/
structure PtCpu where
  vendor : PtCpuVendor
  family : Nat
  model : Nat
deriving DecidableEq

/-- From `src/coverage_decoder.rs`: `PtDecoderError`.  (`src/lib.rs` declares
a second, payload-less enum with the same name; the engine uses this one.)
The extra `Panicked` constructor models the Rust panics reachable in the
engine (`unreachable!` arms and `todo!()` stubs); it also serves as the
fuel-exhaustion fallback of the fuel-bounded loops below, which is never hit
when the fuel exceeds the number of loop rounds. -/
inductive PtDecoderError where
  | Eof
  | IncoherentState
  | IncoherentImage
  | InvalidArgument
  | InvalidPacketSequence (packets : List PtPacket)
  | MalformedInstruction
  | MalformedPacket
  | MalformedPsbPlus
  | MissingImage (address : Nat)
  | SyncFailed
  | Panicked
deriving DecidableEq

/-- From `src/coverage_decoder.rs`: `From<PtPacketParseError> for
PtDecoderError`. -/
def PtDecoderError.ofParse : PtPacketParseError → PtDecoderError
  | .MalformedPacket => .MalformedPacket
  | .Eof => .Eof

/-- From `src/coverage_decoder.rs`: `ProceedInstStopReason`. -/
inductive ProceedInstStopReason where
  | CondBranch (to_ip : Nat)
  | FarIndirect
  | Indirect
  | MovCr3
  | Return
  | UntilIpReached
deriving DecidableEq

/-- From `src/coverage_decoder.rs`: `ExecutionState` (without the
`ret_comp_stack` field, which exists only under the non-default `retc`
feature). -/
structure ExecutionState where
  packet_en : Bool
  pip : Pip
  tip_last_ip : Nat
  ip : Nat
  vmcs : Option Vmcs
  mode_exec : ModeExec
  mode_tsx : ModeTsx
  save_coverage : Bool
deriving DecidableEq

/-- From `src/coverage_decoder.rs`: `ExecutionState::new`. -/
def ExecutionState.new : ExecutionState :=
  { packet_en := false
    pip := { raw := [0, 0, 0, 0, 0, 0] }
    tip_last_ip := 0
    ip := 0
    vmcs := none
    mode_exec := ModeExec.new ._16 false
    mode_tsx := ModeTsx.new .Commit
    save_coverage := true }

/-- From `src/coverage_decoder.rs`: `PtCoverageDecoderBuilder`. -/
structure PtCoverageDecoderBuilder where
  cpu : Option PtCpu
  images : List PtImage
  filter_vmx_non_root : Bool
deriving DecidableEq

/-- From `src/coverage_decoder.rs`: `PtCoverageDecoderBuilder::new`. -/
def PtCoverageDecoderBuilder.new : PtCoverageDecoderBuilder :=
  { cpu := none, images := [], filter_vmx_non_root := false }

/-- From `src/coverage_decoder.rs`: `PtCoverageDecoder`.  The
`proceed_inst_cache: HashMap<u64, (u64, ProceedInstStopReason)>` is modelled
as an association list: `insert` conses, `get` takes the most recent binding
— observationally the hash map's get/insert behaviour, the only operations
the source performs on it. -/
structure PtCoverageDecoder where
  builder : PtCoverageDecoderBuilder
  is_syncd : Bool
  state : ExecutionState
  proceed_inst_cache : List (Nat × Nat × ProceedInstStopReason)
deriving DecidableEq

/-- From `src/coverage_decoder.rs`: `PtCoverageDecoderBuilder::build`. -/
def PtCoverageDecoderBuilder.build (b : PtCoverageDecoderBuilder) :
    Except PtDecoderError PtCoverageDecoder :=
  .ok { builder := b, is_syncd := false, state := ExecutionState.new, proceed_inst_cache := [] }

/-- Modelled from the spec: §6.1, the 16-byte PSB sync pattern
(`02 82` repeated 8 times); `src/packet/psb.rs` is missing from the provided
sources. -/
def psbPattern : List Nat :=
  [0x02, 0x82, 0x02, 0x82, 0x02, 0x82, 0x02, 0x82,
   0x02, 0x82, 0x02, 0x82, 0x02, 0x82, 0x02, 0x82]

/-- Modelled from the spec: `first_psb_position` of the missing
`src/packet/psb.rs` — §4.1: scan the buffer for the first occurrence of the
PSB sync sequence; absent means sync failure. -/
def first_psb_position (buffer : List Nat) : Option Nat :=
  (List.range buffer.length).find? (fun i => psbPattern.isPrefixOf (buffer.drop i))

/-- From `src/packet/decoder.rs`: `PtPacketDecoder`. -/
structure PtPacketDecoder where
  buffer : List Nat
  pos : Nat
  last_psb : Nat
deriving DecidableEq

/-- From `src/packet/decoder.rs`: `PtPacketDecoder::new` — position the
cursor at the first PSB sync, else `SyncFailed`. -/
def PtPacketDecoder.new (buffer : List Nat) : Except PtDecoderError PtPacketDecoder :=
  match first_psb_position buffer with
  | none => .error .SyncFailed
  | some sync => .ok { buffer := buffer, pos := sync, last_psb := sync }

/-- Modelled from the spec: `PtPacketDecoder::new_not_syncd`, called by the
engine when a previous `coverage()` call already synchronised
(`src/packet/decoder.rs` as provided lacks it).  It skips the sync scan and
starts the cursor at the beginning of the buffer. -/
def PtPacketDecoder.new_not_syncd (buffer : List Nat) : PtPacketDecoder :=
  { buffer := buffer, pos := 0, last_psb := 0 }

/-- From `src/packet/decoder.rs`: `PtPacketDecoder::next_packet`; whenever a
`Psb` is produced the decoder records `pos - Psb::SIZE` as the last sync
position. -/
def PtPacketDecoder.next_packet (d : PtPacketDecoder) :
    Except PtDecoderError PtPacket × PtPacketDecoder :=
  match PtPacket.parse d.buffer d.pos with
  | (.ok p, pos') =>
    (.ok p, { d with pos := pos', last_psb := if p = .Psb then pos' - 16 else d.last_psb })
  | (.error e, pos') => (.error (PtDecoderError.ofParse e), { d with pos := pos' })

/-- Modelled from the spec: `PtPacketDecoder::rollback_one_packet`, called by
the overflow handler (`src/packet/decoder.rs` as provided lacks it) — §4.5
Ovf: "roll back the peeked packet so the next dispatch sees it".  The cursor
moves back by the peeked packet's encoded size. -/
def PtPacketDecoder.rollback_one_packet (d : PtPacketDecoder) (p : PtPacket) :
    Except PtDecoderError Unit × PtPacketDecoder :=
  (.ok (), { d with pos := d.pos - p.original_size })

/-- From `src/coverage_decoder.rs`: `CovDecIterationState`, with the generic
coverage bucket type `CE: AddAssign + Debug + From<u8>` instantiated at
`Nat`. -/
structure CovDecIterationState where
  packet_decoder : PtPacketDecoder
  coverage : List Nat
deriving DecidableEq

/-- From `src/coverage_decoder.rs`: `CovDecIterationState::new`.  Returns the
iteration state together with the updated engine value (`is_syncd` is set on
first synchronisation). -/
def CovDecIterationState.new (cov_dec : PtCoverageDecoder) (pt_trace : List Nat)
    (coverage : List Nat) :
    Except PtDecoderError (CovDecIterationState × PtCoverageDecoder) :=
  if coverage.length = 0 then .error .InvalidArgument
  else if cov_dec.is_syncd then
    .ok ({ packet_decoder := PtPacketDecoder.new_not_syncd pt_trace, coverage := coverage },
      cov_dec)
  else
    match PtPacketDecoder.new pt_trace with
    | .error e => .error e
    | .ok pd =>
      .ok ({ packet_decoder := pd, coverage := coverage }, { cov_dec with is_syncd := true })

/-- From `src/coverage_decoder.rs`: the image-selection step of
`ExecutionState::new_inst_decoder` — the first image whose
`[virtual_address_start, virtual_address_end]` range contains the current
`ip` (note: inclusive on both ends in the source), else `MissingImage`.
The subsequent `iced_x86::Decoder` construction is external to the crate
and abstracted by the walk oracle. -/
def new_inst_decoder (st : ExecutionState) (images : List PtImage) :
    Except PtDecoderError PtImage :=
  match images.find? (fun image =>
      decide (st.ip ≥ image.virtual_address_start) &&
      decide (st.ip ≤ image.virtual_address_end)) with
  | some image => .ok image
  | none => .error (.MissingImage st.ip)

/-- The interface of the instruction-walk loop body of `proceed_inst_until`
(`src/coverage_decoder.rs`, lines 596–650).  That loop single-steps x86
instructions through the external `iced_x86` decoder — out of scope of the
specification — so it is abstracted: given the pre-walk execution state and
the optional `until` address, it returns the stop reason (`UntilIpReached`
exactly when the walk stopped at `until`) or an error, together with the
mutated execution state (the loop updates `state.ip` as it walks, also on
error paths). -/
def WalkOracle : Type :=
  ExecutionState → Option Nat →
    (Except PtDecoderError ProceedInstStopReason) × ExecutionState

/-- From `src/coverage_decoder.rs`: `PtCoverageDecoder::proceed_inst_until`.
The embedded parts are the `packet_en` precondition, the memoization-cache
lookup (keyed on `state.ip`, consulted only when `until` is `None`), the
image selection of `new_inst_decoder`, and the cache insertion
`(from ↦ (state.ip, reason))` after a completed walk (skipped on the early
`UntilIpReached` return).  The instruction loop itself is the oracle. -/
def proceed_inst_until (oracle : WalkOracle) (dec : PtCoverageDecoder)
    (stop_ip : Option Nat) :
    (Except PtDecoderError ProceedInstStopReason) × PtCoverageDecoder :=
  if dec.state.packet_en = false then (.error .IncoherentState, dec)
  else
    match (if stop_ip.isNone then dec.proceed_inst_cache.lookup dec.state.ip else none) with
    | some (ip, reason) => (.ok reason, { dec with state := { dec.state with ip := ip } })
    | none =>
      let fromIp := dec.state.ip
      match new_inst_decoder dec.state dec.builder.images with
      | .error e => (.error e, dec)
      | .ok _ =>
        match oracle dec.state stop_ip with
        | (.error e, st') => (.error e, { dec with state := st' })
        | (.ok .UntilIpReached, st') => (.ok .UntilIpReached, { dec with state := st' })
        | (.ok r, st') =>
          (.ok r,
            { dec with
              state := st'
              proceed_inst_cache := (fromIp, st'.ip, r) :: dec.proceed_inst_cache })

/-- From `src/coverage_decoder.rs`: `coverage_entry`. -/
def coverage_entry (fromIp toIp map_len : Nat) : Nat :=
  (fmix64 fromIp ^^^ fmix64 toIp) % map_len

/-- From `src/coverage_decoder.rs`: `PtCoverageDecoder::add_coverage_entry`
— when `save_coverage` is set, increment the bucket
`coverage_entry(state.ip, to_ip, len)` by one. -/
def add_coverage_entry (dec : PtCoverageDecoder) (to_ip : Nat)
    (itst : CovDecIterationState) : CovDecIterationState :=
  if dec.state.save_coverage then
    let i := coverage_entry dec.state.ip to_ip itst.coverage.length
    { itst with coverage := itst.coverage.set i (itst.coverage.getD i 0 + 1) }
  else itst

/-- From `src/coverage_decoder.rs`: `PtCoverageDecoder::handle_tip_pge` —
decompress the IP (non-`None` required, else `MalformedPacket` with the
state untouched), enable tracing, and set both `ip` and `tip_last_ip`. -/
def handle_tip_pge (dec : PtCoverageDecoder) (tip_pge : Tip) :
    Except PtDecoderError Unit × PtCoverageDecoder :=
  let updated := (tip_pge.ip dec.state.tip_last_ip).1
  let newLast := (tip_pge.ip dec.state.tip_last_ip).2
  if updated then
    (.ok (),
      { dec with state :=
        { dec.state with tip_last_ip := newLast, packet_en := true, ip := newLast } })
  else (.error .MalformedPacket, dec)

/-- From `src/coverage_decoder.rs`: `PtCoverageDecoder::handle_tip_pgd`.
The walk result is pattern-matched into `ret`; `self.state.packet_en =
false` runs after that match — so also when `ret` is the `IncoherentImage`
error of a `MovCr3` stop — but not when the walk's own error propagates
through `?`, and not on the `unreachable!` panic arm. -/
def handle_tip_pgd (oracle : WalkOracle) (dec : PtCoverageDecoder) (tip_pgd : Tip) :
    Except PtDecoderError Unit × PtCoverageDecoder :=
  let updated := (tip_pgd.ip dec.state.tip_last_ip).1
  let newLast := (tip_pgd.ip dec.state.tip_last_ip).2
  let dec1 := { dec with state := { dec.state with tip_last_ip := newLast } }
  if updated then
    match proceed_inst_until oracle dec1 (some newLast) with
    | (.error e, d) => (.error e, d)
    | (.ok r, d) =>
      let ret : Except PtDecoderError Unit :=
        match r with
        | .MovCr3 => .error .IncoherentImage
        | _ => .ok ()
      (ret, { d with state := { d.state with packet_en := false } })
  else
    match proceed_inst_until oracle dec1 none with
    | (.error e, d) => (.error e, d)
    | (.ok .UntilIpReached, d) => (.error .Panicked, d)
    | (.ok _, d) => (.ok (), { d with state := { d.state with packet_en := false } })

/-- From `src/coverage_decoder.rs`: `PtCoverageDecoder::handle_async_tip`
(the compound-FUP `Tip` arm). -/
def handle_async_tip (dec : PtCoverageDecoder) (tip : Tip) :
    Except PtDecoderError Unit × PtCoverageDecoder :=
  let updated := (tip.ip dec.state.tip_last_ip).1
  let newLast := (tip.ip dec.state.tip_last_ip).2
  if updated then
    (.ok (), { dec with state := { dec.state with tip_last_ip := newLast, ip := newLast } })
  else (.error (.InvalidPacketSequence [.Tip tip]), dec)

/-- From `src/coverage_decoder.rs`: `PtCoverageDecoder::handle_async_tip_pgd`
(the compound-FUP `TipPgd` arm): disable tracing, update `ip` when the TIP
carries one; never fails. -/
def handle_async_tip_pgd (dec : PtCoverageDecoder) (tip_pgd : Tip) : PtCoverageDecoder :=
  let dec0 := { dec with state := { dec.state with packet_en := false } }
  let updated := (tip_pgd.ip dec0.state.tip_last_ip).1
  let newLast := (tip_pgd.ip dec0.state.tip_last_ip).2
  if updated then
    { dec0 with state := { dec0.state with tip_last_ip := newLast, ip := newLast } }
  else dec0

/-- From `src/coverage_decoder.rs`: `PtCoverageDecoder::handle_async_pip` —
under the `filter_vmx_non_root` option, coverage recording follows the PIP's
non-root-VMX bit; the PIP is stored. -/
def handle_async_pip (dec : PtCoverageDecoder) (pip : Pip) : PtCoverageDecoder :=
  let st := dec.state
  let st1 := if dec.builder.filter_vmx_non_root
    then { st with save_coverage := pip.non_root_vmx } else st
  { dec with state := { st1 with pip := pip } }

/-- From `src/coverage_decoder.rs`: `PtCoverageDecoder::handle_pip` — while
tracing, a PIP must coincide with a `MovCr3` or far-indirect decision
point. -/
def handle_pip (oracle : WalkOracle) (dec : PtCoverageDecoder) (pip : Pip) :
    Except PtDecoderError Unit × PtCoverageDecoder :=
  if dec.state.packet_en then
    match proceed_inst_until oracle dec none with
    | (.error e, d) => (.error e, d)
    | (.ok .MovCr3, d) | (.ok .FarIndirect, d) => (.ok (), handle_async_pip d pip)
    | (.ok (.CondBranch _), d) | (.ok .Indirect, d) | (.ok .Return, d) =>
      (.error .IncoherentImage, d)
    | (.ok .UntilIpReached, d) => (.error .Panicked, d)
  else (.ok (), handle_async_pip dec pip)

/-- From `src/coverage_decoder.rs`:
`PtCoverageDecoder::handle_standalone_fup` — update `tip_last_ip` from the
FUP (non-`None` required) and walk until exactly that address. -/
def handle_standalone_fup (oracle : WalkOracle) (dec : PtCoverageDecoder) (fup : Tip) :
    Except PtDecoderError Unit × PtCoverageDecoder :=
  let updated := (fup.ip dec.state.tip_last_ip).1
  let newLast := (fup.ip dec.state.tip_last_ip).2
  if ¬updated then (.error .MalformedPacket, dec)
  else
    let dec1 := { dec with state := { dec.state with tip_last_ip := newLast } }
    match proceed_inst_until oracle dec1 (some newLast) with
    | (.error e, d) => (.error e, d)
    | (.ok .UntilIpReached, d) => (.ok (), d)
    | (.ok _, d) => (.error .IncoherentImage, d)

/-- From `src/coverage_decoder.rs`:
`PtCoverageDecoder::handle_fup_after_ovf`. -/
def handle_fup_after_ovf (dec : PtCoverageDecoder) (fup : Tip) :
    Except PtDecoderError Unit × PtCoverageDecoder :=
  let updated := (fup.ip dec.state.tip_last_ip).1
  let newLast := (fup.ip dec.state.tip_last_ip).2
  if ¬updated then (.error .MalformedPacket, dec)
  else
    (.ok (), { dec with state := { dec.state with tip_last_ip := newLast, ip := newLast } })

/-- From `src/coverage_decoder.rs`: `PtCoverageDecoder::handle_ovf` — peek
one packet: a FUP re-enables tracing and reveals the resume address; any
other packet disables tracing and is rolled back for normal dispatch. -/
def handle_ovf (dec : PtCoverageDecoder) (itst : CovDecIterationState) :
    Except PtDecoderError Unit × PtCoverageDecoder × CovDecIterationState :=
  match itst.packet_decoder.next_packet with
  | (.error e, pd) => (.error e, dec, { itst with packet_decoder := pd })
  | (.ok (.Fup fup), pd) =>
    let dec1 := { dec with state := { dec.state with packet_en := true } }
    let (r, dec2) := handle_fup_after_ovf dec1 fup
    (r, dec2, { itst with packet_decoder := pd })
  | (.ok p, pd) =>
    let dec1 := { dec with state := { dec.state with packet_en := false } }
    let (r, pd2) := pd.rollback_one_packet p
    (r, dec1, { itst with packet_decoder := pd2 })

/-- From `src/coverage_decoder.rs`: `PtCoverageDecoder::proceed_inst_tip` —
a TIP satisfies an indirect/far/return decision point; the edge
`(state.ip, decompressed target)` is recorded. -/
def proceed_inst_tip (oracle : WalkOracle) (dec : PtCoverageDecoder)
    (itst : CovDecIterationState) (tip : Tip) :
    Except PtDecoderError Unit × PtCoverageDecoder × CovDecIterationState :=
  match proceed_inst_until oracle dec none with
  | (.error e, d) => (.error e, d, itst)
  | (.ok .Indirect, d) | (.ok .FarIndirect, d) | (.ok .Return, d) =>
    let updated := (tip.ip d.state.tip_last_ip).1
    let newLast := (tip.ip d.state.tip_last_ip).2
    if updated then
      let d1 := { d with state := { d.state with tip_last_ip := newLast } }
      let itst1 := add_coverage_entry d1 newLast itst
      (.ok (), { d1 with state := { d1.state with ip := newLast } }, itst1)
    else (.error .MalformedPacket, d, itst)
  | (.ok (.CondBranch _), d) | (.ok .MovCr3, d) => (.error .IncoherentImage, d, itst)
  | (.ok .UntilIpReached, d) => (.error .Panicked, d, itst)

/-- From `src/coverage_decoder.rs`: the inner `'inst` loop of
`proceed_inst_tnt`, for one TNT bit (without the `retc` feature, a `Return`
stop joins the indirect deferred-TIP arm).  Each round of the loop that does
not settle the bit consumes one packet from the stream, so any
`fuel > remaining buffer bytes` is enough. -/
def tnt_inner (oracle : WalkOracle) :
    Nat → Bool → PtCoverageDecoder → CovDecIterationState →
    Except PtDecoderError Unit × PtCoverageDecoder × CovDecIterationState
  | 0, _, dec, itst => (.error .Panicked, dec, itst)
  | fuel + 1, tnt, dec, itst =>
    match proceed_inst_until oracle dec none with
    | (.error e, d) => (.error e, d, itst)
    | (.ok (.CondBranch to_ip), d) =>
      if tnt then
        let itst1 := add_coverage_entry d to_ip itst
        (.ok (), { d with state := { d.state with ip := to_ip } }, itst1)
      else (.ok (), d, itst)
    | (.ok .Indirect, d) | (.ok .FarIndirect, d) | (.ok .Return, d) =>
      match itst.packet_decoder.next_packet with
      | (.error e, pd) => (.error e, d, { itst with packet_decoder := pd })
      | (.ok p, pd) =>
        let itst1 := { itst with packet_decoder := pd }
        match p with
        | .Tip tip =>
          let updated := (tip.ip d.state.tip_last_ip).1
          let newLast := (tip.ip d.state.tip_last_ip).2
          if updated then
            let d1 := { d with state := { d.state with tip_last_ip := newLast } }
            let itst2 := add_coverage_entry d1 newLast itst1
            tnt_inner oracle fuel tnt
              { d1 with state := { d1.state with ip := newLast } } itst2
          else (.error .MalformedPacket, d, itst1)
        | _ => (.error (.InvalidPacketSequence [p]), d, itst1)
    | (.ok .MovCr3, d) => (.error .IncoherentImage, d, itst)
    | (.ok .UntilIpReached, d) => (.error .Panicked, d, itst)

/-- From `src/coverage_decoder.rs`: the `for tnt in tnt_iter` loop of
`proceed_inst_tnt`, over the collected Taken/Not-taken bits. -/
def tnt_outer (oracle : WalkOracle) (fuel : Nat) :
    List Bool → PtCoverageDecoder → CovDecIterationState →
    Except PtDecoderError Unit × PtCoverageDecoder × CovDecIterationState
  | [], dec, itst => (.ok (), dec, itst)
  | tnt :: rest, dec, itst =>
    match tnt_inner oracle fuel tnt dec itst with
    | (.ok _, d, i) => tnt_outer oracle fuel rest d i
    | (.error e, d, i) => (.error e, d, i)

/-- From `src/coverage_decoder.rs`: `PtCoverageDecoder::proceed_inst_tnt`. -/
def proceed_inst_tnt (oracle : WalkOracle) (fuel : Nat) (tnt_iter : TntIter)
    (dec : PtCoverageDecoder) (itst : CovDecIterationState) :
    Except PtDecoderError Unit × PtCoverageDecoder × CovDecIterationState :=
  tnt_outer oracle fuel tnt_iter.toList dec itst

/-- From `src/coverage_decoder.rs`: the compound-FUP loop of `handle_fup`
(the `todo!()` arms for `Vmcs` and `ModeExec` are `Panicked`).  Each round
consumes one packet. -/
def handle_fup_loop (oracle : WalkOracle) :
    Nat → PtCoverageDecoder → CovDecIterationState → Tip →
    Except PtDecoderError Unit × PtCoverageDecoder × CovDecIterationState
  | 0, dec, itst, _ => (.error .Panicked, dec, itst)
  | fuel + 1, dec, itst, fup =>
    match itst.packet_decoder.next_packet with
    | (.error e, pd) => (.error e, dec, { itst with packet_decoder := pd })
    | (.ok p, pd) =>
      let itst1 := { itst with packet_decoder := pd }
      match p with
      | .Pip pip => handle_fup_loop oracle fuel (handle_async_pip dec pip) itst1 fup
      | .Vmcs _ => (.error .Panicked, dec, itst1)
      | .ModeExec _ => (.error .Panicked, dec, itst1)
      | .Tip tip =>
        let (r, d) := handle_async_tip dec tip
        (r, d, itst1)
      | .TipPgd t => (.ok (), handle_async_tip_pgd dec t, itst1)
      | _ => (.error (.InvalidPacketSequence [.Fup fup, p]), dec, itst1)

/-- From `src/coverage_decoder.rs`: `PtCoverageDecoder::handle_fup` —
standalone FUP walk, then the compound loop until the event closes. -/
def handle_fup (oracle : WalkOracle) (fuel : Nat) (dec : PtCoverageDecoder)
    (itst : CovDecIterationState) (fup : Tip) :
    Except PtDecoderError Unit × PtCoverageDecoder × CovDecIterationState :=
  match handle_standalone_fup oracle dec fup with
  | (.error e, d) => (.error e, d, itst)
  | (.ok _, d) => handle_fup_loop oracle fuel d itst fup

/-- From `src/coverage_decoder.rs`: `PtCoverageDecoder::handle_mode_exec` —
the follow-up packet must be `Tip`, `TipPge` or `Fup`; `mode_exec` is stored
only on success. -/
def handle_mode_exec (oracle : WalkOracle) (dec : PtCoverageDecoder)
    (itst : CovDecIterationState) (mode_exec : ModeExec) :
    Except PtDecoderError Unit × PtCoverageDecoder × CovDecIterationState :=
  match itst.packet_decoder.next_packet with
  | (.error e, pd) => (.error e, dec, { itst with packet_decoder := pd })
  | (.ok p, pd) =>
    let itst1 := { itst with packet_decoder := pd }
    let step : Except PtDecoderError Unit × PtCoverageDecoder × CovDecIterationState :=
      match p with
      | .Tip tip => proceed_inst_tip oracle dec itst1 tip
      | .TipPge t =>
        let (r, d) := handle_tip_pge dec t
        (r, d, itst1)
      | .Fup f =>
        let (r, d) := handle_standalone_fup oracle dec f
        (r, d, itst1)
      | _ => (.error (.InvalidPacketSequence [.ModeExec mode_exec, p]), dec, itst1)
    match step with
    | (.error e, d, i) => (.error e, d, i)
    | (.ok _, d, i) =>
      (.ok (), { d with state := { d.state with mode_exec := mode_exec } }, i)

/-- From `src/coverage_decoder.rs`: `PtCoverageDecoder::handle_mode_tsx` —
while tracing, a `ModeTsx` is followed by a standalone FUP, and on an
`Abort` additionally by a `Tip` / `TipPge` / `TipPgd`; `mode_tsx` is stored
only on success. -/
def handle_mode_tsx (oracle : WalkOracle) (dec : PtCoverageDecoder)
    (itst : CovDecIterationState) (mode_tsx : ModeTsx) :
    Except PtDecoderError Unit × PtCoverageDecoder × CovDecIterationState :=
  let step : Except PtDecoderError Unit × PtCoverageDecoder × CovDecIterationState :=
    if dec.state.packet_en then
      match itst.packet_decoder.next_packet with
      | (.error e, pd) => (.error e, dec, { itst with packet_decoder := pd })
      | (.ok (.Fup fup), pd) =>
        let itst1 := { itst with packet_decoder := pd }
        match handle_standalone_fup oracle dec fup with
        | (.error e, d) => (.error e, d, itst1)
        | (.ok _, d) =>
          if mode_tsx.transaction_state = .Abort then
            match itst1.packet_decoder.next_packet with
            | (.error e, pd2) => (.error e, d, { itst1 with packet_decoder := pd2 })
            | (.ok p2, pd2) =>
              let itst2 := { itst1 with packet_decoder := pd2 }
              match p2 with
              | .Tip tip => proceed_inst_tip oracle d itst2 tip
              | .TipPge t =>
                let (r, d2) := handle_tip_pge d t
                (r, d2, itst2)
              | .TipPgd t =>
                let (r, d2) := handle_tip_pgd oracle d t
                (r, d2, itst2)
              | _ =>
                (.error (.InvalidPacketSequence [.ModeTsx mode_tsx, .Fup fup, p2]), d, itst2)
          else (.ok (), d, itst1)
      | (.ok p, pd) =>
        (.error (.InvalidPacketSequence [.ModeTsx mode_tsx, p]), dec,
          { itst with packet_decoder := pd })
    else (.ok (), dec, itst)
  match step with
  | (.error e, d, i) => (.error e, d, i)
  | (.ok _, d, i) => (.ok (), { d with state := { d.state with mode_tsx := mode_tsx } }, i)

/-- From `src/coverage_decoder.rs`: `decode_psbplus_fup` — the `bdm70`
errata branch has an empty (`// todo`) body, so the CPU argument has no
observable effect; the FUP updates the last IP iff it carries one. -/
def decode_psbplus_fup (fup : Tip) (last_ip : Nat) (_cpu : Option PtCpu) : Option Nat :=
  let updated := (fup.ip last_ip).1
  let newLast := (fup.ip last_ip).2
  if updated then some newLast else none

/-- From `src/coverage_decoder.rs`: the loop of `decode_psbplus`, threading
the state being rebuilt (the PSB+ `Ovf` arm is a `todo!()`).  Each round
consumes one packet. -/
def decode_psbplus_loop (cpu : Option PtCpu) :
    Nat → CovDecIterationState → ExecutionState →
    Except PtDecoderError ExecutionState × CovDecIterationState
  | 0, itst, _ => (.error .Panicked, itst)
  | fuel + 1, itst, state =>
    match itst.packet_decoder.next_packet with
    | (.error e, pd) => (.error e, { itst with packet_decoder := pd })
    | (.ok p, pd) =>
      let itst1 := { itst with packet_decoder := pd }
      match p with
      | .PsbEnd => (.ok state, itst1)
      | .Pip pip => decode_psbplus_loop cpu fuel itst1 { state with pip := pip }
      | .Vmcs v => decode_psbplus_loop cpu fuel itst1 { state with vmcs := some v }
      | .ModeTsx m => decode_psbplus_loop cpu fuel itst1 { state with mode_tsx := m }
      | .ModeExec m => decode_psbplus_loop cpu fuel itst1 { state with mode_exec := m }
      | .Fup fup =>
        match decode_psbplus_fup fup state.tip_last_ip cpu with
        | some last_ip =>
          decode_psbplus_loop cpu fuel itst1
            { state with packet_en := true, tip_last_ip := last_ip, ip := last_ip }
        | none => decode_psbplus_loop cpu fuel itst1 { state with packet_en := false }
      | .Ovf => (.error .Panicked, itst1)
      | _ => (.error .MalformedPsbPlus, itst1)

/-- From `src/coverage_decoder.rs`: `decode_psbplus` — rebuild a fresh
execution state from the PSB+ island up to `PsbEnd`. -/
def decode_psbplus (fuel : Nat) (itst : CovDecIterationState) (cpu : Option PtCpu) :
    Except PtDecoderError ExecutionState × CovDecIterationState :=
  decode_psbplus_loop cpu fuel itst ExecutionState.new

/-- From `src/coverage_decoder.rs`:
`PtCoverageDecoder::proceed_with_trace` — consume one top-level packet and
dispatch (the `_ => {}` arm ignores `Mnt` and `Trig`). -/
def proceed_with_trace (oracle : WalkOracle) (fuel : Nat) (dec : PtCoverageDecoder)
    (itst : CovDecIterationState) :
    Except PtDecoderError Unit × PtCoverageDecoder × CovDecIterationState :=
  match itst.packet_decoder.next_packet with
  | (.error e, pd) => (.error e, dec, { itst with packet_decoder := pd })
  | (.ok p, pd) =>
    let itst1 := { itst with packet_decoder := pd }
    match p with
    | .TntShort t => proceed_inst_tnt oracle fuel (.TntShortIter t.intoIter) dec itst1
    | .TntLong t => proceed_inst_tnt oracle fuel (.TntLongIter t.intoIter) dec itst1
    | .Tip t => proceed_inst_tip oracle dec itst1 t
    | .TipPge t =>
      let (r, d) := handle_tip_pge dec t
      (r, d, itst1)
    | .TipPgd t =>
      let (r, d) := handle_tip_pgd oracle dec t
      (r, d, itst1)
    | .Fup f => handle_fup oracle fuel dec itst1 f
    | .Pip pip =>
      let (r, d) := handle_pip oracle dec pip
      (r, d, itst1)
    | .ModeExec m => handle_mode_exec oracle dec itst1 m
    | .ModeTsx m => handle_mode_tsx oracle dec itst1 m
    | .TraceStop => (.ok (), dec, itst1)
    | .Vmcs _ => (.ok (), dec, itst1)
    | .Ovf => handle_ovf dec itst1
    | .Psb =>
      match decode_psbplus fuel itst1 dec.builder.cpu with
      | (.ok st, itst2) => (.ok (), { dec with state := st }, itst2)
      | (.error e, itst2) => (.error e, dec, itst2)
    | .PsbEnd => (.error (.InvalidPacketSequence [.PsbEnd]), dec, itst1)
    | .Mnt _ => (.ok (), dec, itst1)
    | .Trig _ => (.ok (), dec, itst1)

/-- From `src/coverage_decoder.rs`: the `loop` of
`PtCoverageDecoder::coverage` — repeat `proceed_with_trace` until `Eof`
(success) or another error.  Each round consumes at least one packet, so any
`fuel > number of packets in the buffer` is enough. -/
def coverage_loop (oracle : WalkOracle) :
    Nat → PtCoverageDecoder → CovDecIterationState →
    Except PtDecoderError Unit × PtCoverageDecoder × List Nat
  | 0, dec, itst => (.error .Panicked, dec, itst.coverage)
  | fuel + 1, dec, itst =>
    match proceed_with_trace oracle fuel dec itst with
    | (.ok _, d, i) => coverage_loop oracle fuel d i
    | (.error .Eof, d, i) => (.ok (), d, i.coverage)
    | (.error e, d, i) => (.error e, d, i.coverage)

/-- From `src/coverage_decoder.rs`: `PtCoverageDecoder::coverage` — the
public entry point: build the iteration state over the trace and the
caller's map, then loop to EOF.  Returns the outcome, the engine after the
call, and the final coverage map. -/
def coverage (oracle : WalkOracle) (fuel : Nat) (dec : PtCoverageDecoder)
    (pt_trace : List Nat) (cov : List Nat) :
    Except PtDecoderError Unit × PtCoverageDecoder × List Nat :=
  match CovDecIterationState.new dec pt_trace cov with
  | .error e => (.error e, dec, cov)
  | .ok (itst, dec1) => coverage_loop oracle fuel dec1 itst

/-- Modelled from the spec: §4.7/§6.3 — the `ignore_coverage_until` warm-up
cutoff (default 0) and its gating of coverage recording.  This configuration
is absent from the provided sources (`PtCoverageDecoderBuilder` has no such
field and `add_coverage_entry` checks only `save_coverage`); per the spec,
coverage is recorded when `save_coverage` holds and the packet-cursor
position has advanced past `ignore_coverage_until`, and the bucket update is
the source's `add_coverage_entry` body over `coverage_entry`. -/
def add_coverage_entry_gated (save_coverage : Bool) (ignore_coverage_until pos : Nat)
    (fromIp to_ip : Nat) (cov : List Nat) : List Nat :=
  if save_coverage ∧ ignore_coverage_until < pos then
    let i := coverage_entry fromIp to_ip cov.length
    cov.set i (cov.getD i 0 + 1)
  else cov

/-- A trivial walk oracle (fails immediately); used where a concrete run
never reaches the abstracted instruction loop. -/
def oracleStub : WalkOracle := fun st _ => (.error .Eof, st)

/-- A walk oracle that reports a `MovCr3` decision point without moving. -/
def oracleMovCr3 : WalkOracle := fun st _ => (.ok .MovCr3, st)

/-- A freshly built engine (`PtCoverageDecoderBuilder::new().build()`). -/
def decFresh : PtCoverageDecoder :=
  { builder := PtCoverageDecoderBuilder.new
    is_syncd := false
    state := ExecutionState.new
    proceed_inst_cache := [] }

/-- A one-byte image at `0x40`, for the image-membership boundary. -/
def imageC2 : PtImage :=
  { data := [0x00], virtual_address := 0x40 }

/-- An already-synchronised engine whose memoization cache holds the entry
`0x1000 ↦ (0x2000, Indirect)`. -/
def decCached : PtCoverageDecoder :=
  { builder := { cpu := none, images := [], filter_vmx_non_root := false }
    is_syncd := true
    state := ExecutionState.new
    proceed_inst_cache := [(0x1000, 0x2000, .Indirect)] }

/-- A trace holding one complete PSB+ island: the 16-byte sync, a FUP
carrying the full 64-bit address `0x1000`, and `PsbEnd`. -/
def tracePsbFup : List Nat :=
  psbPattern ++ [0xdd, 0x00, 0x10, 0, 0, 0, 0, 0, 0] ++ [0x02, 0x23]

/-- Iteration state positioned at the start of `tracePsbFup`. -/
def itstPsbFup : CovDecIterationState :=
  { packet_decoder := PtPacketDecoder.new_not_syncd tracePsbFup, coverage := [0, 0] }

/-- The engine after `decCached` dispatched the `Psb` of `tracePsbFup`
(PSB+ recovery rebuilt the execution state). -/
def decAfterPsb : PtCoverageDecoder :=
  (proceed_with_trace oracleStub 100 decCached itstPsbFup).2.1

/-- A tracing engine at `ip = 0x50` with no images, for the TIP.PGD
error path. -/
def decNoImage : PtCoverageDecoder :=
  { builder := { cpu := none, images := [], filter_vmx_non_root := false }
    is_syncd := true
    state := { ExecutionState.new with packet_en := true, ip := 0x50 }
    proceed_inst_cache := [] }

/-- A tracing engine at `ip = 0x60` whose single image contains that
address. -/
def decAtImage : PtCoverageDecoder :=
  { builder :=
      { cpu := none
        images := [{ data := [0x00], virtual_address := 0x60 }]
        filter_vmx_non_root := false }
    is_syncd := true
    state := { ExecutionState.new with packet_en := true, ip := 0x60 }
    proceed_inst_cache := [] }

/-- A tracing engine whose cache resolves `ip = 0x10` to a conditional
branch, for the IP-less TIP.PGD path. -/
def decCondCached : PtCoverageDecoder :=
  { builder := { cpu := none, images := [], filter_vmx_non_root := false }
    is_syncd := true
    state := { ExecutionState.new with packet_en := true, ip := 0x10 }
    proceed_inst_cache := [(0x10, 0x18, .CondBranch 0x30)] }

/-- A TIP carrying the full 64-bit address `0x60`. -/
def tip64 : Tip := { ip_bytes := ._64, target_ip := 0x60 }

/-- A TIP in the IP-less (`IpBytes::None`) form. -/
def tipNone : Tip := { ip_bytes := .None, target_ip := 0 }

/-- An iteration state whose next packet is a `TipPge` carrying the full
64-bit address `0x1234`. -/
def itstTipPge : CovDecIterationState :=
  { packet_decoder := { buffer := [0xd1, 0x34, 0x12, 0, 0, 0, 0, 0, 0], pos := 0, last_psb := 0 }
    coverage := [0] }

/-- C2 (counterexample): the claim's half-open membership fails on the code —
the instruction walk selects the one-byte image `[0x40, 0x41]`-based
`imageC2` also for the address `0x41 = base_va + len(bytes)`, instead of
failing with `MissingImage`: the source bound is inclusive
(`ip <= virtual_address_end`). -/
theorem c2_membership_counterexample :
    new_inst_decoder { ExecutionState.new with ip := 0x41 } [imageC2] = .ok imageC2 ∧
    ¬(0x41 < imageC2.virtual_address_start + imageC2.data.length) := by
  decide

/-- C2 (amended): image membership is closed — the instruction walk selects
an image for address `a` iff `base_va ≤ a ≤ base_va + len(bytes)` (the first
such image), and fails with `MissingImage` exactly when no image satisfies
that inclusive bound. -/
theorem c2_image_membership (images : List PtImage) (st : ExecutionState) :
    (new_inst_decoder st images = .error (.MissingImage st.ip) ↔
      ∀ img ∈ images,
        ¬(img.virtual_address_start ≤ st.ip ∧ st.ip ≤ img.virtual_address_end)) ∧
    ((∃ img, new_inst_decoder st images = .ok img) ↔
      ∃ img ∈ images,
        img.virtual_address_start ≤ st.ip ∧ st.ip ≤ img.virtual_address_end) := by
  unfold new_inst_decoder
  cases h : images.find? (fun image =>
      decide (st.ip ≥ image.virtual_address_start) &&
      decide (st.ip ≤ image.virtual_address_end)) with
  | none =>
    rw [List.find?_eq_none] at h
    simp only [Bool.and_eq_true, decide_eq_true_eq] at h
    constructor
    · exact iff_of_true rfl (fun img hm hc => h img hm ⟨hc.1, hc.2⟩)
    · constructor
      · rintro ⟨img, himg⟩; exact absurd himg (by simp)
      · rintro ⟨img, hm, hc⟩; exact absurd ⟨hc.1, hc.2⟩ (h img hm)
  | some img =>
    have hmem := List.mem_of_find?_eq_some h
    have hp := List.find?_some h
    simp only [Bool.and_eq_true, decide_eq_true_eq] at hp
    constructor
    · constructor
      · intro hcontra; exact absurd hcontra (by simp)
      · intro hall; exact absurd ⟨hp.1, hp.2⟩ (hall img hmem)
    · exact iff_of_true ⟨img, rfl⟩ ⟨img, hmem, hp.1, hp.2⟩

/-- C3 (counterexample): the claim's count is wrong on the code — iterating
the TNT-long payload `[0xAA, 0xAA, 0xAA, 0xAA, 0x00, 0x00]` yields 31 bits,
not 30 (the stop bit is bit 31 of the little-endian payload `0xAAAAAAAA`,
and all 31 bits below it are produced). -/
theorem c3_tntlong_counterexample :
    (TntLong.intoIter ⟨[0xAA, 0xAA, 0xAA, 0xAA, 0x00, 0x00]⟩).toList.length ≠ 30 := by
  decide

/-- C3 (amended): iterating the TNT-short byte `0b00110100` yields exactly
`[taken, not-taken, taken, not-taken]`; iterating a TNT-long with payload
bytes `[0xAA, 0xAA, 0xAA, 0xAA, 0x00, 0x00]` yields 31 alternating bits
(not-taken first) ending not-taken, taken, not-taken — the stop bit is the
highest set bit of the little-endian payload, bits produced MSB-first below
it. -/
theorem c3_tnt_iteration_boundaries :
    (TntShort.intoIter ⟨0b00110100⟩).toList = [true, false, true, false] ∧
    (TntLong.intoIter ⟨[0xAA, 0xAA, 0xAA, 0xAA, 0x00, 0x00]⟩).toList =
      (List.replicate 15 [false, true]).flatten ++ [false] ∧
    (TntLong.intoIter ⟨[0xAA, 0xAA, 0xAA, 0xAA, 0x00, 0x00]⟩).toList.length = 31 := by
  decide

/-- C4 (counterexample): the decision-point cache is not invalidated by PSB+
recovery — after `decCached` handles the `Psb` of `tracePsbFup` (whose FUP
rebuilds the state at `ip = 0x1000`), a walk returns the
`(0x2000, Indirect)` pair memoized before the rebuild. -/
theorem c4_cache_counterexample :
    (itstPsbFup.packet_decoder.next_packet).1 = .ok .Psb ∧
    decCached.proceed_inst_cache.lookup 0x1000 = some (0x2000, .Indirect) ∧
    (proceed_with_trace oracleStub 100 decCached itstPsbFup).1 = .ok () ∧
    decAfterPsb.state.packet_en = true ∧
    decAfterPsb.state.ip = 0x1000 ∧
    decAfterPsb.proceed_inst_cache = decCached.proceed_inst_cache ∧
    (proceed_inst_until oracleStub decAfterPsb none).1 = .ok .Indirect ∧
    (proceed_inst_until oracleStub decAfterPsb none).2.state.ip = 0x2000 := by
  decide

/-- C4 (amended): PSB+ recovery does not invalidate the memoization cache —
handling a `Psb` packet (whether `decode_psbplus` succeeds or fails) leaves
`proceed_inst_cache` unchanged, so a walk after the rebuild can return a
`(next ip, stop reason)` pair memoized before the rebuild. -/
theorem c4_cache_survives_psbplus (oracle : WalkOracle) (fuel : Nat)
    (dec : PtCoverageDecoder) (itst : CovDecIterationState) (pd : PtPacketDecoder)
    (h : itst.packet_decoder.next_packet = (.ok .Psb, pd)) :
    (proceed_with_trace oracle fuel dec itst).2.1.proceed_inst_cache =
      dec.proceed_inst_cache := by
  unfold proceed_with_trace
  rw [h]
  cases hd : decode_psbplus fuel { itst with packet_decoder := pd } dec.builder.cpu with
  | mk r i => cases r <;> simp [hd]

/-- Witness for `c4_cache_survives_psbplus` at the concrete `tracePsbFup`
island. -/
theorem c4_cache_survives_psbplus_witness :
    itstPsbFup.packet_decoder.next_packet =
      (.ok .Psb, { buffer := tracePsbFup, pos := 16, last_psb := 0 }) ∧
    (proceed_with_trace oracleStub 100 decCached itstPsbFup).2.1.proceed_inst_cache =
      decCached.proceed_inst_cache :=
  ⟨by decide,
    c4_cache_survives_psbplus oracleStub 100 decCached itstPsbFup
      { buffer := tracePsbFup, pos := 16, last_psb := 0 } (by decide)⟩

/-- C5: coverage accumulation — the bucket incremented for edge
`(from, to)` in a map of length `L > 0` is `(fmix64 from ^^^ fmix64 to) % L`
(by one), and nothing is incremented when `save_coverage` is false
(source `add_coverage_entry`) or when the packet-cursor position has not
advanced past the `ignore_coverage_until` offset (spec-modelled gate
`add_coverage_entry_gated`, the configuration being absent from the provided
sources). -/
theorem c5_coverage_accumulation (save : Bool) (thr pos fromIp to_ip : Nat)
    (cov : List Nat) (dec : PtCoverageDecoder) (itst : CovDecIterationState) :
    (save = true → thr < pos →
      add_coverage_entry_gated save thr pos fromIp to_ip cov =
        cov.set ((fmix64 fromIp ^^^ fmix64 to_ip) % cov.length)
          (cov.getD ((fmix64 fromIp ^^^ fmix64 to_ip) % cov.length) 0 + 1)) ∧
    (save = false ∨ pos ≤ thr →
      add_coverage_entry_gated save thr pos fromIp to_ip cov = cov) ∧
    (dec.state.save_coverage = true →
      (add_coverage_entry dec to_ip itst).packet_decoder = itst.packet_decoder ∧
      (add_coverage_entry dec to_ip itst).coverage =
        itst.coverage.set ((fmix64 dec.state.ip ^^^ fmix64 to_ip) % itst.coverage.length)
          (itst.coverage.getD
            ((fmix64 dec.state.ip ^^^ fmix64 to_ip) % itst.coverage.length) 0 + 1)) ∧
    (dec.state.save_coverage = false → add_coverage_entry dec to_ip itst = itst) := by
  refine ⟨?_, ?_, ?_, ?_⟩
  · intro hs hp
    simp [add_coverage_entry_gated, coverage_entry, hs, hp]
  · intro h
    rcases h with h | h
    · simp [add_coverage_entry_gated, h]
    · simp [add_coverage_entry_gated]
      intro _
      omega
  · intro hs
    constructor
    · simp [add_coverage_entry, hs]
    · simp [add_coverage_entry, coverage_entry, hs]
  · intro hs
    simp [add_coverage_entry, hs]

/-- Witness for `c5_coverage_accumulation` at a concrete edge and 3-bucket
map. -/
theorem c5_coverage_accumulation_witness :
    add_coverage_entry_gated true 0 1 3 5 [0, 0, 0] =
      [0, 0, 0].set ((fmix64 3 ^^^ fmix64 5) % 3)
        ([0, 0, 0].getD ((fmix64 3 ^^^ fmix64 5) % 3) 0 + 1) ∧
    add_coverage_entry_gated true 7 7 3 5 [0, 0, 0] = [0, 0, 0] ∧
    add_coverage_entry_gated false 0 1 3 5 [0, 0, 0] = [0, 0, 0] :=
  ⟨(c5_coverage_accumulation true 0 1 3 5 [0, 0, 0] decFresh itstTipPge).1 rfl (by decide),
    ((c5_coverage_accumulation true 7 7 3 5 [0, 0, 0] decFresh itstTipPge).2.1
      (Or.inr (le_refl 7))),
    ((c5_coverage_accumulation false 0 1 3 5 [0, 0, 0] decFresh itstTipPge).2.1
      (Or.inl rfl))⟩

/-- C6: with `packet_en = false`, any call to the walk primitive
`proceed_inst_until` fails with `IncoherentState` and leaves the engine
untouched, for every walk oracle (hence no instruction is decoded) and
every `until` argument. -/
theorem c6_walk_requires_packet_en (oracle : WalkOracle) (dec : PtCoverageDecoder)
    (stop_ip : Option Nat) (h : dec.state.packet_en = false) :
    proceed_inst_until oracle dec stop_ip = (.error .IncoherentState, dec) := by
  simp [proceed_inst_until, h]

/-- Witness for `c6_walk_requires_packet_en` on a freshly built engine
(`packet_en` is initially false). -/
theorem c6_walk_requires_packet_en_witness :
    decFresh.state.packet_en = false ∧
    proceed_inst_until oracleStub decFresh (some 5) = (.error .IncoherentState, decFresh) :=
  ⟨rfl, c6_walk_requires_packet_en oracleStub decFresh (some 5) rfl⟩

/-- C8: handling a `TipPge` whose `IpBytes` tag is `None` fails with
`MalformedPacket` and leaves the engine (in particular `packet_en`, `ip`,
`tip_last_ip`) unchanged; a `TipPge` carrying an IP sets `packet_en := true`
and both `ip` and `tip_last_ip` to the decompressed IP; and the `TipPge`
dispatch arm of `proceed_with_trace` never changes the coverage map. -/
theorem c8_tip_pge (dec : PtCoverageDecoder) (t : Tip) :
    (t.ip_bytes = .None → handle_tip_pge dec t = (.error .MalformedPacket, dec)) ∧
    (t.ip_bytes ≠ .None →
      handle_tip_pge dec t =
        (.ok (),
          { dec with state :=
            { dec.state with
              tip_last_ip := (t.ip dec.state.tip_last_ip).2
              packet_en := true
              ip := (t.ip dec.state.tip_last_ip).2 } })) ∧
    (∀ (oracle : WalkOracle) (fuel : Nat) (itst : CovDecIterationState)
      (pd : PtPacketDecoder),
      itst.packet_decoder.next_packet = (.ok (.TipPge t), pd) →
      (proceed_with_trace oracle fuel dec itst).2.2.coverage = itst.coverage) := by
  refine ⟨?_, ?_, ?_⟩
  · intro h
    simp [handle_tip_pge, Tip.ip, h]
  · intro h
    cases ht : t.ip_bytes
    case None => exact absurd ht h
    all_goals simp [handle_tip_pge, Tip.ip, ht]
  · intro oracle fuel itst pd h
    unfold proceed_with_trace
    rw [h]

/-- Witness for `c8_tip_pge`: the `None`-form TIP, a 64-bit TIP, and the
concrete `itstTipPge` stream whose next packet is that `TipPge`. -/
theorem c8_tip_pge_witness :
    handle_tip_pge decFresh tipNone = (.error .MalformedPacket, decFresh) ∧
    handle_tip_pge decFresh { ip_bytes := ._64, target_ip := 0x1234 } =
      (.ok (),
        { decFresh with state :=
          { decFresh.state with
            tip_last_ip :=
              (Tip.ip { ip_bytes := ._64, target_ip := 0x1234 } decFresh.state.tip_last_ip).2
            packet_en := true
            ip :=
              (Tip.ip { ip_bytes := ._64, target_ip := 0x1234 } decFresh.state.tip_last_ip).2 } }) ∧
    (proceed_with_trace oracleStub 10 decFresh itstTipPge).2.2.coverage =
      itstTipPge.coverage :=
  ⟨(c8_tip_pge decFresh tipNone).1 rfl,
    (c8_tip_pge decFresh { ip_bytes := ._64, target_ip := 0x1234 }).2.1 (by decide),
    (c8_tip_pge decFresh { ip_bytes := ._64, target_ip := 0x1234 }).2.2 oracleStub 10
      itstTipPge
      { buffer := [0xd1, 0x34, 0x12, 0, 0, 0, 0, 0, 0], pos := 9, last_psb := 0 }
      (by decide)⟩

/-- C9: determinism of coverage — two engines freshly built from the same
builder, run over the same trace with the same walk oracle, the same fuel
and identically-initialised coverage maps, produce identical outcomes,
identical final engines and identical bucket counts.  (`coverage` is a pure
function of trace bytes, images, CPU descriptor and configuration; the
sync scan `first_psb_position` of the missing `src/packet/psb.rs` is
spec-modelled.) -/
theorem c9_coverage_deterministic (oracle : WalkOracle) (fuel : Nat)
    (b : PtCoverageDecoderBuilder) (trace cov1 cov2 : List Nat)
    (d1 d2 : PtCoverageDecoder)
    (h1 : b.build = .ok d1) (h2 : b.build = .ok d2) (hc : cov1 = cov2) :
    coverage oracle fuel d1 trace cov1 = coverage oracle fuel d2 trace cov2 := by
  unfold PtCoverageDecoderBuilder.build at h1 h2
  subst hc
  cases h1
  cases h2
  rfl

/-- Witness for `c9_coverage_deterministic` on the concrete `tracePsbFup`. -/
theorem c9_coverage_deterministic_witness :
    PtCoverageDecoderBuilder.new.build = .ok decFresh ∧
    coverage oracleStub 50 decFresh tracePsbFup [0, 0] =
      coverage oracleStub 50 decFresh tracePsbFup [0, 0] :=
  ⟨rfl,
    c9_coverage_deterministic oracleStub 50 PtCoverageDecoderBuilder.new tracePsbFup
      [0, 0] [0, 0] decFresh decFresh rfl rfl rfl⟩

/-- C10 (counterexample): handling a `TipPgd` does not always set
`packet_en` to false — when the walk itself fails (here: no image covers
`ip = 0x50`, so the walk errors `MissingImage` before reaching a decision
point), the error propagates through `?` and `packet_en` stays true. -/
theorem c10_pgd_counterexample :
    (handle_tip_pgd oracleStub decNoImage tip64).1 = .error (.MissingImage 0x50) ∧
    (handle_tip_pgd oracleStub decNoImage tip64).2.state.packet_en = true := by
  decide

/-- C10 (amended): handling a `TipPgd` sets `packet_en` to false whenever
the walk completes with a stop reason — on the success path, and on the
`MovCr3` path where the handler returns `IncoherentImage` but the disable is
not rolled back; when the walk itself fails, the walk's error propagates and
`packet_en` is left as the walk left it. -/
theorem c10_tip_pgd_disable (oracle : WalkOracle) (dec : PtCoverageDecoder) (t : Tip) :
    ((handle_tip_pgd oracle dec t).1 = .ok () →
      (handle_tip_pgd oracle dec t).2.state.packet_en = false) ∧
    ((t.ip dec.state.tip_last_ip).1 = true →
      (proceed_inst_until oracle
          { dec with state :=
            { dec.state with tip_last_ip := (t.ip dec.state.tip_last_ip).2 } }
          (some (t.ip dec.state.tip_last_ip).2)).1 = .ok .MovCr3 →
      handle_tip_pgd oracle dec t =
        (.error .IncoherentImage,
          { (proceed_inst_until oracle
              { dec with state :=
                { dec.state with tip_last_ip := (t.ip dec.state.tip_last_ip).2 } }
              (some (t.ip dec.state.tip_last_ip).2)).2 with state :=
            { (proceed_inst_until oracle
                { dec with state :=
                  { dec.state with tip_last_ip := (t.ip dec.state.tip_last_ip).2 } }
                (some (t.ip dec.state.tip_last_ip).2)).2.state with
              packet_en := false } })) ∧
    (∀ e : PtDecoderError,
      (t.ip dec.state.tip_last_ip).1 = true →
      (proceed_inst_until oracle
          { dec with state :=
            { dec.state with tip_last_ip := (t.ip dec.state.tip_last_ip).2 } }
          (some (t.ip dec.state.tip_last_ip).2)).1 = .error e →
      handle_tip_pgd oracle dec t =
        (.error e,
          (proceed_inst_until oracle
            { dec with state :=
              { dec.state with tip_last_ip := (t.ip dec.state.tip_last_ip).2 } }
            (some (t.ip dec.state.tip_last_ip).2)).2)) := by
  refine ⟨?_, ?_, ?_⟩
  · intro h
    simp only [handle_tip_pgd] at h ⊢
    by_cases hu : (t.ip dec.state.tip_last_ip).1 = true
    · simp only [hu, if_true] at h ⊢
      rcases hq : proceed_inst_until oracle
          { dec with state :=
            { dec.state with tip_last_ip := (t.ip dec.state.tip_last_ip).2 } }
          (some (t.ip dec.state.tip_last_ip).2) with ⟨r, d⟩
      rw [hq] at h
      cases r with
      | error e => simp at h
      | ok reason => cases reason <;> simp_all
    · rw [Bool.not_eq_true] at hu
      simp only [hu, Bool.false_eq_true, if_false] at h ⊢
      rcases hq : proceed_inst_until oracle
          { dec with state :=
            { dec.state with tip_last_ip := (t.ip dec.state.tip_last_ip).2 } }
          none with ⟨r, d⟩
      rw [hq] at h
      cases r with
      | error e => simp at h
      | ok reason => cases reason <;> simp_all
  · intro hu hw
    simp only [handle_tip_pgd, hu, if_true]
    rcases hq : proceed_inst_until oracle
        { dec with state :=
          { dec.state with tip_last_ip := (t.ip dec.state.tip_last_ip).2 } }
        (some (t.ip dec.state.tip_last_ip).2) with ⟨r, d⟩
    rw [hq] at hw
    simp only at hw
    subst hw
    rfl
  · intro e hu hw
    simp only [handle_tip_pgd, hu, if_true]
    rcases hq : proceed_inst_until oracle
        { dec with state :=
          { dec.state with tip_last_ip := (t.ip dec.state.tip_last_ip).2 } }
        (some (t.ip dec.state.tip_last_ip).2) with ⟨r, d⟩
    rw [hq] at hw
    simp only at hw
    subst hw
    rfl

/-- Witness for `c10_tip_pgd_disable`: the three paths at concrete engines —
a cache-resolved conditional branch (IP-less PGD, success), a `MovCr3` walk
(IP-carrying PGD, `IncoherentImage`), and a failing walk (no image,
`MissingImage`). -/
theorem c10_tip_pgd_disable_witness :
    (handle_tip_pgd oracleStub decCondCached tipNone).2.state.packet_en = false ∧
    (handle_tip_pgd oracleMovCr3 decAtImage tip64).1 = .error .IncoherentImage ∧
    (handle_tip_pgd oracleMovCr3 decAtImage tip64).2.state.packet_en = false ∧
    (handle_tip_pgd oracleStub decNoImage tip64).1 = .error (.MissingImage 0x50) :=
  ⟨(c10_tip_pgd_disable oracleStub decCondCached tipNone).1 (by decide),
    by
      rw [(c10_tip_pgd_disable oracleMovCr3 decAtImage tip64).2.1 (by decide) (by decide)],
    by
      rw [(c10_tip_pgd_disable oracleMovCr3 decAtImage tip64).2.1 (by decide) (by decide)],
    by
      rw [(c10_tip_pgd_disable oracleStub decNoImage tip64).2.2 (.MissingImage 0x50)
        (by decide) (by decide)]⟩

/-- Masking with `2 ^ k * (2 ^ m - 1)` (a contiguous run of `m` one-bits
starting at bit `k`) extracts bits `k .. k + m - 1` in place. -/
theorem land_mask_high (x k m : Nat) :
    x &&& 2 ^ k * (2 ^ m - 1) = 2 ^ k * (x / 2 ^ k % 2 ^ m) := by
  apply Nat.eq_of_testBit_eq
  intro j
  rw [Nat.testBit_and, Nat.testBit_mul_pow_two, Nat.testBit_mul_pow_two,
    Nat.testBit_two_pow_sub_one, Nat.testBit_mod_two_pow, ← Nat.shiftRight_eq_div_pow,
    Nat.testBit_shiftRight]
  by_cases hk : k ≤ j
  · have hkj : k + (j - k) = j := by omega
    rw [hkj]
    simp only [ge_iff_le, hk, decide_True, Bool.true_and]
    cases x.testBit j <;> cases hjk : decide (j - k < m) <;> simp
  · simp [ge_iff_le, hk]

/-- The TIP partial-update arithmetic: the high-mask-or-low-mask combination
keeps the bits of `last` from bit `k` up and takes the low `k` bits of
`payload`. -/
theorem ip_compress_formula (last payload k m : Nat) (hl : last < 2 ^ k * 2 ^ m) :
    last &&& 2 ^ k * (2 ^ m - 1) ||| (payload &&& (2 ^ k - 1)) =
      last / 2 ^ k * 2 ^ k + payload % 2 ^ k := by
  rw [Nat.and_pow_two_sub_one_eq_mod, land_mask_high]
  have h1 : last / 2 ^ k < 2 ^ m := by
    rw [Nat.div_lt_iff_lt_mul (Nat.two_pow_pos k)]
    calc last < 2 ^ k * 2 ^ m := hl
      _ = 2 ^ m * 2 ^ k := by ring
  rw [Nat.mod_eq_of_lt h1,
    ← Nat.mul_add_lt_is_or (Nat.mod_lt payload (Nat.two_pow_pos k)) (last / 2 ^ k),
    Nat.mul_comm]

/-- `sign_extend_48` is sign extension from bit 47 of the low 48 payload
bits: the upper 16 result bits are all-ones exactly when bit 47 is set. -/
theorem sign_extend_48_spec (x : Nat) (_hx : x < 2 ^ 64) :
    sign_extend_48 x =
      if x.testBit 47 then x % 2 ^ 48 + 0xffff * 2 ^ 48 else x % 2 ^ 48 := by
  unfold sign_extend_48
  have hy : (x <<< 16) % 2 ^ 64 = x % 2 ^ 48 * 2 ^ 16 := by
    rw [Nat.shiftLeft_eq, show (2 : Nat) ^ 64 = 2 ^ 48 * 2 ^ 16 by norm_num,
      Nat.mul_mod_mul_right]
  have hplt : x % 2 ^ 48 < 2 ^ 48 := Nat.mod_lt x (by norm_num)
  have hbit : (x % 2 ^ 48).testBit 47 = x.testBit 47 := by
    rw [Nat.testBit_mod_two_pow]
    simp
  simp only [hy]
  by_cases h47 : x.testBit 47
  · have hge : 2 ^ 47 ≤ x % 2 ^ 48 := Nat.testBit_implies_ge (by rw [hbit]; exact h47)
    have hylt : ¬ x % 2 ^ 48 * 2 ^ 16 < 2 ^ 63 := by
      push_neg
      calc (2 : Nat) ^ 63 = 2 ^ 47 * 2 ^ 16 := by norm_num
        _ ≤ x % 2 ^ 48 * 2 ^ 16 := Nat.mul_le_mul_right _ hge
    rw [if_neg hylt, if_pos h47]
    have hz : ((x % 2 ^ 48 * 2 ^ 16 : Nat) : Int) - 2 ^ 64 =
        (((x % 2 ^ 48 : Nat) : Int) - 2 ^ 48) * 2 ^ 16 := by
      push_cast
      ring
    rw [hz, Int.mul_fdiv_cancel _ (by norm_num)]
    omega
  · have hbf : (x % 2 ^ 48).testBit 47 = false := by
      rw [hbit]
      exact Bool.not_eq_true _ ▸ h47
    have hlt47 : x % 2 ^ 48 < 2 ^ 47 := by
      apply Nat.lt_pow_two_of_testBit
      intro i hi
      rcases Nat.eq_or_lt_of_le hi with rfl | hi'
      · exact hbf
      · exact Nat.testBit_lt_two_pow
          (lt_of_lt_of_le hplt (Nat.pow_le_pow_right (by norm_num) (by omega)))
    have hylt : x % 2 ^ 48 * 2 ^ 16 < 2 ^ 63 := by
      calc x % 2 ^ 48 * 2 ^ 16 < 2 ^ 47 * 2 ^ 16 :=
            (Nat.mul_lt_mul_right (by norm_num)).mpr hlt47
        _ = 2 ^ 63 := by norm_num
    rw [if_pos hylt, if_neg h47]
    have hz : ((x % 2 ^ 48 * 2 ^ 16 : Nat) : Int) = ((x % 2 ^ 48 : Nat) : Int) * 2 ^ 16 := by
      push_cast
      ring
    rw [hz, Int.mul_fdiv_cancel _ (by norm_num)]
    omega

/-- C1: TIP-family address decompression — for every tag and every pair
`(last_ip, payload)` of 64-bit values, `Tip::ip` returns true exactly when
the tag is not `None` (leaving `last_ip` unchanged and returning false on
`None`), and the new `last_ip` follows the spec table: tag 16 keeps the high
48 bits of `last_ip` and takes the low 16 payload bits, tag 32 keeps the
high 32 bits, tag 48 keeps the high 16 bits, `SignExtend48` sign-extends the
48-bit payload from bit 47, and tag 64 takes the payload verbatim. -/
theorem c1_tip_decompression (tag : IpBytes) (last payload : Nat)
    (hl : last < 2 ^ 64) (hp : payload < 2 ^ 64) :
    ((Tip.ip { ip_bytes := tag, target_ip := payload } last).1 = decide (tag ≠ .None)) ∧
    (Tip.ip { ip_bytes := tag, target_ip := payload } last).2 =
      (match tag with
        | .None => last
        | ._16 => last / 2 ^ 16 * 2 ^ 16 + payload % 2 ^ 16
        | ._32 => last / 2 ^ 32 * 2 ^ 32 + payload % 2 ^ 32
        | ._48 => last / 2 ^ 48 * 2 ^ 48 + payload % 2 ^ 48
        | .SignExtend48 =>
          if payload.testBit 47 then payload % 2 ^ 48 + 0xffff * 2 ^ 48
          else payload % 2 ^ 48
        | ._64 => payload) := by
  cases tag
  case None => exact ⟨rfl, rfl⟩
  case _64 => exact ⟨rfl, rfl⟩
  case SignExtend48 =>
    refine ⟨rfl, ?_⟩
    simp only [Tip.ip]
    exact sign_extend_48_spec payload hp
  case _16 =>
    refine ⟨rfl, ?_⟩
    simp only [Tip.ip]
    rw [show (0xffffffffffff0000 : Nat) = 2 ^ 16 * (2 ^ 48 - 1) by norm_num,
      show (0xffff : Nat) = 2 ^ 16 - 1 by norm_num,
      ip_compress_formula last payload 16 48 (by calc last < 2 ^ 64 := hl
        _ = 2 ^ 16 * 2 ^ 48 := by norm_num)]
  case _32 =>
    refine ⟨rfl, ?_⟩
    simp only [Tip.ip]
    rw [show (0xffffffff00000000 : Nat) = 2 ^ 32 * (2 ^ 32 - 1) by norm_num,
      show (0xffffffff : Nat) = 2 ^ 32 - 1 by norm_num,
      ip_compress_formula last payload 32 32 (by calc last < 2 ^ 64 := hl
        _ = 2 ^ 32 * 2 ^ 32 := by norm_num)]
  case _48 =>
    refine ⟨rfl, ?_⟩
    simp only [Tip.ip]
    rw [show (0xffff000000000000 : Nat) = 2 ^ 48 * (2 ^ 16 - 1) by norm_num,
      show (0xffffffffffff : Nat) = 2 ^ 48 - 1 by norm_num,
      ip_compress_formula last payload 48 16 (by calc last < 2 ^ 64 := hl
        _ = 2 ^ 48 * 2 ^ 16 := by norm_num)]

/-- Witness for `c1_tip_decompression` at concrete 64-bit values, one per
interesting tag. -/
theorem c1_tip_decompression_witness :
    (0xaabbccddeeff1122 : Nat) < 2 ^ 64 ∧ (0x9344 : Nat) < 2 ^ 64 ∧
    (Tip.ip { ip_bytes := ._16, target_ip := 0x9344 } 0xaabbccddeeff1122).2 =
      0xaabbccddeeff1122 / 2 ^ 16 * 2 ^ 16 + 0x9344 % 2 ^ 16 ∧
    (Tip.ip { ip_bytes := .SignExtend48, target_ip := 0x800000000001 } 77).2 =
      (if (0x800000000001 : Nat).testBit 47
        then 0x800000000001 % 2 ^ 48 + 0xffff * 2 ^ 48
        else 0x800000000001 % 2 ^ 48) ∧
    (Tip.ip { ip_bytes := .None, target_ip := 0 } 77).1 = decide (IpBytes.None ≠ .None) :=
  ⟨by decide, by decide,
    (c1_tip_decompression ._16 0xaabbccddeeff1122 0x9344 (by decide) (by decide)).2,
    (c1_tip_decompression .SignExtend48 77 0x800000000001 (by decide) (by decide)).2,
    (c1_tip_decompression .None 77 0 (by decide) (by decide)).1⟩

theorem tip_try_from_payload_ne_eof (l : List Nat) :
    Tip.try_from_payload l ≠ .error .Eof := by
  unfold Tip.try_from_payload
  repeat' split
  all_goals simp

theorem tipArm_ne_skip {mk : Tip → PtPacket} {l : List Nat} {n : Nat} :
    tipArm mk l ≠ .skip n := by
  unfold tipArm
  split
  all_goals simp

theorem tipArm_ne_fail_eof {mk : Tip → PtPacket} {l : List Nat} :
    tipArm mk l ≠ .fail .Eof := by
  unfold tipArm
  split
  · simp
  · rename_i e heq
    intro hc
    injection hc with hc
    subst hc
    exact tip_try_from_payload_ne_eof l heq

theorem tipArm_yield_inv {mk : Tip → PtPacket} {l : List Nat} {p : PtPacket}
    (h : tipArm mk l = .yieldPacket p) : ∃ t, p = mk t := by
  unfold tipArm at h
  split at h
  · exact ⟨_, by injection h with h; rw [h]⟩
  · simp at h

theorem modeExec_try_ne_eof (b1 : Nat) :
    ModeExec.try_from_payload b1 ≠ .error .Eof := by
  unfold ModeExec.try_from_payload
  split
  all_goals simp

theorem modeTsx_try_ne_eof (b1 : Nat) :
    ModeTsx.try_from_payload b1 ≠ .error .Eof := by
  unfold ModeTsx.try_from_payload
  repeat' split
  all_goals simp

theorem modeArm_ne_skip {b1 n : Nat} : modeArm b1 ≠ .skip n := by
  unfold modeArm ModeExec.try_from_payload ModeTsx.try_from_payload
  repeat' split
  all_goals simp

theorem modeArm_ne_fail_eof {b1 : Nat} : modeArm b1 ≠ .fail .Eof := by
  intro h
  unfold modeArm at h
  split at h
  · split at h
    · simp at h
    · rename_i e heq
      injection h with h
      subst h
      exact modeExec_try_ne_eof b1 heq
  · split at h
    · split at h
      · simp at h
      · rename_i e heq
        injection h with h
        subst h
        exact modeTsx_try_ne_eof b1 heq
    · simp at h

theorem modeArm_ne_tntShort {b1 : Nat} {t : TntShort} :
    modeArm b1 ≠ .yieldPacket (.TntShort t) := by
  unfold modeArm ModeExec.try_from_payload ModeTsx.try_from_payload
  repeat' split
  all_goals simp

theorem cbrArm_skip {r : List Nat} {n : Nat} (h : cbrArm r = .skip n) : n = 4 := by
  unfold cbrArm at h
  split at h
  all_goals simp_all

theorem cbrArm_ne_fail_eof {r : List Nat} : cbrArm r ≠ .fail .Eof := by
  unfold cbrArm
  split
  all_goals simp

theorem cbrArm_ne_tntShort {r : List Nat} {t : TntShort} :
    cbrArm r ≠ .yieldPacket (.TntShort t) := by
  unfold cbrArm
  split
  all_goals simp

theorem vmcsArm_ne_skip {r : List Nat} {n : Nat} : vmcsArm r ≠ .skip n := by
  unfold vmcsArm
  split
  all_goals simp

theorem vmcsArm_ne_fail_eof {r : List Nat} : vmcsArm r ≠ .fail .Eof := by
  unfold vmcsArm
  split
  all_goals simp

theorem vmcsArm_ne_tntShort {r : List Nat} {t : TntShort} :
    vmcsArm r ≠ .yieldPacket (.TntShort t) := by
  unfold vmcsArm
  split
  all_goals simp

theorem pipArm_ne_skip {r : List Nat} {n : Nat} : pipArm r ≠ .skip n := by
  unfold pipArm
  split
  all_goals simp

theorem pipArm_ne_fail_eof {r : List Nat} : pipArm r ≠ .fail .Eof := by
  unfold pipArm
  split
  all_goals simp

theorem pipArm_ne_tntShort {r : List Nat} {t : TntShort} :
    pipArm r ≠ .yieldPacket (.TntShort t) := by
  unfold pipArm
  split
  all_goals simp

theorem tntLongArm_ne_skip {r : List Nat} {n : Nat} : tntLongArm r ≠ .skip n := by
  unfold tntLongArm
  repeat' split
  all_goals simp

theorem tntLongArm_ne_fail_eof {r : List Nat} : tntLongArm r ≠ .fail .Eof := by
  unfold tntLongArm
  repeat' split
  all_goals simp

theorem tntLongArm_ne_tntShort {r : List Nat} {t : TntShort} :
    tntLongArm r ≠ .yieldPacket (.TntShort t) := by
  unfold tntLongArm
  repeat' split
  all_goals simp

theorem mntArm_ne_skip {r : List Nat} {n : Nat} : mntArm r ≠ .skip n := by
  unfold mntArm
  repeat' split
  all_goals simp

theorem mntArm_ne_fail_eof {r : List Nat} : mntArm r ≠ .fail .Eof := by
  unfold mntArm
  repeat' split
  all_goals simp

theorem mntArm_ne_tntShort {r : List Nat} {t : TntShort} :
    mntArm r ≠ .yieldPacket (.TntShort t) := by
  unfold mntArm
  repeat' split
  all_goals simp

theorem trigArm_ne_skip {r : List Nat} {n : Nat} : trigArm r ≠ .skip n := by
  unfold trigArm
  split
  all_goals simp

theorem trigArm_ne_fail_eof {r : List Nat} : trigArm r ≠ .fail .Eof := by
  unfold trigArm
  split
  all_goals simp

theorem trigArm_ne_tntShort {r : List Nat} {t : TntShort} :
    trigArm r ≠ .yieldPacket (.TntShort t) := by
  unfold trigArm
  split
  all_goals simp

theorem extendedArm_skip {r : List Nat} {n : Nat} (h : extendedArm r = .skip n) :
    n = 4 := by
  unfold extendedArm at h
  repeat' split at h
  all_goals first
    | (exact cbrArm_skip h)
    | (exact absurd h vmcsArm_ne_skip)
    | (exact absurd h pipArm_ne_skip)
    | (exact absurd h tntLongArm_ne_skip)
    | (exact absurd h mntArm_ne_skip)
    | simp_all

theorem extendedArm_ne_fail_eof {r : List Nat} : extendedArm r ≠ .fail .Eof := by
  intro h
  unfold extendedArm at h
  repeat' split at h
  all_goals first
    | (exact cbrArm_ne_fail_eof h)
    | (exact vmcsArm_ne_fail_eof h)
    | (exact pipArm_ne_fail_eof h)
    | (exact tntLongArm_ne_fail_eof h)
    | (exact mntArm_ne_fail_eof h)
    | simp_all

theorem extendedArm_ne_tntShort {r : List Nat} {t : TntShort} :
    extendedArm r ≠ .yieldPacket (.TntShort t) := by
  intro h
  unfold extendedArm at h
  repeat' split at h
  all_goals first
    | (exact cbrArm_ne_tntShort h)
    | (exact vmcsArm_ne_tntShort h)
    | (exact pipArm_ne_tntShort h)
    | (exact tntLongArm_ne_tntShort h)
    | (exact mntArm_ne_tntShort h)
    | simp_all

theorem dispatchOne_skip {l : List Nat} {n : Nat} (h : dispatchOne l = .skip n) :
    l ≠ [] ∧ 1 ≤ n := by
  cases l with
  | nil => simp [dispatchOne] at h
  | cons b0 rest =>
    refine ⟨by simp, ?_⟩
    simp only [dispatchOne] at h
    repeat' split at h
    all_goals first
      | (exact absurd h tipArm_ne_skip)
      | (exact absurd h modeArm_ne_skip)
      | (exact absurd h trigArm_ne_skip)
      | (have e := extendedArm_skip h; omega)
      | simp_all

theorem dispatchOne_fail_eof {l : List Nat} (h : dispatchOne l = .fail .Eof) :
    l = [] := by
  cases l with
  | nil => rfl
  | cons b0 rest =>
    exfalso
    simp only [dispatchOne] at h
    repeat' split at h
    all_goals first
      | (exact tipArm_ne_fail_eof h)
      | (exact modeArm_ne_fail_eof h)
      | (exact trigArm_ne_fail_eof h)
      | (exact extendedArm_ne_fail_eof h)
      | simp_all

theorem dispatchOne_fail_malformed {l : List Nat}
    (h : dispatchOne l = .fail .MalformedPacket) : l ≠ [] := by
  cases l with
  | nil => simp [dispatchOne] at h
  | cons b0 rest => simp

theorem dispatchOne_tntShort {l : List Nat} {t : TntShort}
    (h : dispatchOne l = .yieldPacket (.TntShort t)) :
    t.raw &&& 0x01 = 0 ∧ 0x04 ≤ t.raw ∧ ∃ rest, l = t.raw :: rest := by
  cases l with
  | nil => simp [dispatchOne] at h
  | cons b0 rest =>
    simp only [dispatchOne] at h
    repeat' split at h
    all_goals first
      | (obtain ⟨t2, ht2⟩ := tipArm_yield_inv h; simp at ht2)
      | (exact absurd h modeArm_ne_tntShort)
      | (exact absurd h trigArm_ne_tntShort)
      | (exact absurd h extendedArm_ne_tntShort)
      | (cases h; simp_all)
      | simp_all

theorem dispatchOne_skip_pos {input : List Nat} {pos n : Nat}
    (h : dispatchOne (input.drop pos) = .skip n) : pos < input.length ∧ 1 ≤ n := by
  obtain ⟨hne, hn⟩ := dispatchOne_skip h
  refine ⟨?_, hn⟩
  by_contra hc
  push_neg at hc
  exact hne (List.drop_eq_nil_of_le hc)

theorem parseLoop_fuel_irrelevant :
    ∀ (f1 f2 : Nat) (input : List Nat) (pos : Nat),
      input.length - pos < f1 → input.length - pos < f2 →
      parseLoop f1 input pos = parseLoop f2 input pos := by
  intro f1
  induction f1 with
  | zero => omega
  | succ f1 ih =>
    intro f2 input pos h1 h2
    cases f2 with
    | zero => omega
    | succ f2 =>
      simp only [parseLoop]
      cases h : dispatchOne (input.drop pos) with
      | skip n =>
        obtain ⟨hpos, hn⟩ := dispatchOne_skip_pos h
        exact ih f2 input (pos + n) (by omega) (by omega)
      | yieldPacket p => rfl
      | fail e => rfl

theorem parse_step (input : List Nat) (pos : Nat) :
    PtPacket.parse input pos =
      match dispatchOne (input.drop pos) with
      | .skip n => PtPacket.parse input (pos + n)
      | .yieldPacket p => (.ok p, pos + p.original_size)
      | .fail e => (.error e, pos) := by
  have h0 : PtPacket.parse input pos =
      (match dispatchOne (input.drop pos) with
      | .skip n => parseLoop input.length input (pos + n)
      | .yieldPacket p => (.ok p, pos + p.original_size)
      | .fail e => (.error e, pos)) := rfl
  rw [h0]
  cases h : dispatchOne (input.drop pos) with
  | skip n =>
    obtain ⟨hpos, hn⟩ := dispatchOne_skip_pos h
    show parseLoop input.length input (pos + n) =
      parseLoop (input.length + 1) input (pos + n)
    exact parseLoop_fuel_irrelevant input.length (input.length + 1) input (pos + n)
      (by omega) (by omega)
  | yieldPacket p => rfl
  | fail e => rfl

theorem parse_eof_of_exhausted {input : List Nat} {pos : Nat}
    (h : input.length ≤ pos) : PtPacket.parse input pos = (.error .Eof, pos) := by
  rw [parse_step, List.drop_eq_nil_of_le h]
  rfl

theorem parse_tntShort_inv :
    ∀ (k : Nat) (input : List Nat) (pos pos' : Nat) (t : TntShort),
      input.length - pos ≤ k →
      PtPacket.parse input pos = (.ok (.TntShort t), pos') →
      t.raw &&& 0x01 = 0 ∧ 0x04 ≤ t.raw ∧
        ∃ rest, input.drop (pos' - 1) = t.raw :: rest := by
  intro k
  induction k with
  | zero =>
    intro input pos pos' t hk h
    rw [parse_eof_of_exhausted (by omega)] at h
    exact absurd h (by simp)
  | succ k ih =>
    intro input pos pos' t hk h
    rw [parse_step] at h
    cases hd : dispatchOne (input.drop pos) with
    | skip n =>
      rw [hd] at h
      obtain ⟨hpos, hn⟩ := dispatchOne_skip_pos hd
      exact ih input (pos + n) pos' t (by omega) h
    | yieldPacket p =>
      rw [hd] at h
      simp only [Prod.mk.injEq] at h
      obtain ⟨hp, hpos'⟩ := h
      injection hp with hp
      subst hp
      obtain ⟨h1, h2, rest, hr⟩ := dispatchOne_tntShort hd
      have hsize : (PtPacket.TntShort t).original_size = 1 := rfl
      refine ⟨h1, h2, rest, ?_⟩
      rw [← hpos', hsize]
      simpa using hr
    | fail e =>
      rw [hd] at h
      exact absurd h (by simp)

theorem parse_malformed_fix :
    ∀ (k : Nat) (input : List Nat) (pos pos' : Nat),
      input.length - pos ≤ k →
      PtPacket.parse input pos = (.error .MalformedPacket, pos') →
      pos' < input.length ∧
        PtPacket.parse input pos' = (.error .MalformedPacket, pos') := by
  intro k
  induction k with
  | zero =>
    intro input pos pos' hk h
    rw [parse_eof_of_exhausted (by omega)] at h
    exact absurd h (by simp)
  | succ k ih =>
    intro input pos pos' hk h
    rw [parse_step] at h
    cases hd : dispatchOne (input.drop pos) with
    | skip n =>
      rw [hd] at h
      obtain ⟨hpos, hn⟩ := dispatchOne_skip_pos hd
      exact ih input (pos + n) pos' (by omega) h
    | yieldPacket p =>
      rw [hd] at h
      exact absurd h (by simp)
    | fail e =>
      rw [hd] at h
      simp only [Prod.mk.injEq] at h
      obtain ⟨he, hpos'⟩ := h
      injection he with he
      subst he
      subst hpos'
      have hne := dispatchOne_fail_malformed hd
      have hlt : pos < input.length := by
        by_contra hc
        push_neg at hc
        exact hne (List.drop_eq_nil_of_le hc)
      refine ⟨hlt, ?_⟩
      rw [parse_step, hd]

theorem parse_eof_exhausts :
    ∀ (k : Nat) (input : List Nat) (pos pos' : Nat),
      input.length - pos ≤ k →
      PtPacket.parse input pos = (.error .Eof, pos') →
      input.length ≤ pos' := by
  intro k
  induction k with
  | zero =>
    intro input pos pos' hk h
    rw [parse_eof_of_exhausted (by omega)] at h
    simp only [Prod.mk.injEq] at h
    omega
  | succ k ih =>
    intro input pos pos' hk h
    rw [parse_step] at h
    cases hd : dispatchOne (input.drop pos) with
    | skip n =>
      rw [hd] at h
      obtain ⟨hpos, hn⟩ := dispatchOne_skip_pos hd
      exact ih input (pos + n) pos' (by omega) h
    | yieldPacket p =>
      rw [hd] at h
      exact absurd h (by simp)
    | fail e =>
      rw [hd] at h
      simp only [Prod.mk.injEq] at h
      obtain ⟨he, hpos'⟩ := h
      injection he with he
      subst he
      subst hpos'
      have := dispatchOne_fail_eof hd
      by_contra hc
      push_neg at hc
      rw [List.drop_eq_nil_iff] at this
      omega

/-- C7: packet-decoder dispatch — parsing silently skips `0x00` padding
bytes and 4-byte CBR packets without yielding a packet, yields `TntShort`
only for a header byte `b` with `b &&& 0x01 = 0` and `b ≥ 0x04`, fails
`MalformedPacket` on a byte pattern matching no known packet without
advancing past the bad byte (re-parsing from the final cursor fails
identically in place), and fails `Eof` exactly when the buffer is
exhausted. -/
theorem c7_packet_dispatch (input : List Nat) (pos : Nat) :
    (∀ rest, input.drop pos = 0x00 :: rest →
      PtPacket.parse input pos = PtPacket.parse input (pos + 1)) ∧
    (∀ x y rest, input.drop pos = 0x02 :: 0x03 :: x :: y :: rest →
      PtPacket.parse input pos = PtPacket.parse input (pos + 4)) ∧
    (∀ b rest, input.drop pos = b :: rest → b ≠ 0x00 → b &&& 0x01 = 0 → 0x04 ≤ b →
      PtPacket.parse input pos = (.ok (.TntShort ⟨b⟩), pos + 1)) ∧
    (∀ t pos', PtPacket.parse input pos = (.ok (.TntShort t), pos') →
      t.raw &&& 0x01 = 0 ∧ 0x04 ≤ t.raw ∧
        ∃ rest, input.drop (pos' - 1) = t.raw :: rest) ∧
    (∀ pos', PtPacket.parse input pos = (.error .MalformedPacket, pos') →
      pos' < input.length ∧
        PtPacket.parse input pos' = (.error .MalformedPacket, pos')) ∧
    (∀ pos', PtPacket.parse input pos = (.error .Eof, pos') → input.length ≤ pos') ∧
    (input.length ≤ pos → PtPacket.parse input pos = (.error .Eof, pos)) := by
  refine ⟨?_, ?_, ?_, ?_, ?_, ?_, ?_⟩
  · intro rest h
    rw [parse_step, h]
    rfl
  · intro x y rest h
    rw [parse_step, h]
    rfl
  · intro b rest h hb0 h1 h4
    rw [parse_step, h]
    simp only [dispatchOne, if_neg hb0, if_pos (⟨h1, h4⟩ : b &&& 0x01 = 0 ∧ 0x04 ≤ b)]
    rfl
  · intro t pos' h
    exact parse_tntShort_inv input.length input pos pos' t (by omega) h
  · intro pos' h
    exact parse_malformed_fix input.length input pos pos' (by omega) h
  · intro pos' h
    exact parse_eof_exhausts input.length input pos pos' (by omega) h
  · intro h
    exact parse_eof_of_exhausted h

/-- Witness for `c7_packet_dispatch`: a padding skip, a CBR skip, a
TNT-short yield and its inversion, a malformed byte, and end-of-buffer, each
at concrete buffers. -/
theorem c7_packet_dispatch_witness :
    PtPacket.parse [0x00, 0x06] 0 = PtPacket.parse [0x00, 0x06] 1 ∧
    PtPacket.parse [0x02, 0x03, 9, 9, 0x06] 0 =
      PtPacket.parse [0x02, 0x03, 9, 9, 0x06] 4 ∧
    PtPacket.parse [0x06] 0 = (.ok (.TntShort ⟨0x06⟩), 0 + 1) ∧
    ((0x06 : Nat) &&& 0x01 = 0 ∧ 0x04 ≤ (0x06 : Nat) ∧
      ∃ rest, ([0x06] : List Nat).drop (1 - 1) = 0x06 :: rest) ∧
    (0 < ([0x07] : List Nat).length ∧
      PtPacket.parse [0x07] 0 = (.error .MalformedPacket, 0)) ∧
    ([] : List Nat).length ≤ 0 ∧
    PtPacket.parse ([] : List Nat) 0 = (.error .Eof, 0) :=
  ⟨(c7_packet_dispatch [0x00, 0x06] 0).1 [0x06] rfl,
    (c7_packet_dispatch [0x02, 0x03, 9, 9, 0x06] 0).2.1 9 9 [0x06] rfl,
    (c7_packet_dispatch [0x06] 0).2.2.1 0x06 [] rfl (by decide) (by decide) (by decide),
    (c7_packet_dispatch [0x06] 0).2.2.2.1 ⟨0x06⟩ 1 (by decide),
    (c7_packet_dispatch [0x07] 0).2.2.2.2.1 0 (by decide),
    by decide,
    (c7_packet_dispatch ([] : List Nat) 0).2.2.2.2.2.2 (by decide)⟩

end Ptcov
